import Mathlib

/-!
Verification of stress-ng: bogo-op counter protocol, continue check, bit
arrays and the UDP flood stressor.

A shallow embedding of the inline helpers of `stress-ng.h`
(`stress_continue`, `stress_bogo_add`, `stress_bogo_inc`, `stress_bogo_set`,
`stress_force_killed_bogo`, `stress_bogo_add_lock`, `stress_bogo_inc_lock`,
`stress_align_stack`), of its bit-array macros, class constants and port map
declaration, and of `stress_udp_flood` in `stress-udp-flood.c`.

Conventions:
* `uint64_t` values are natural numbers; arithmetic that can overflow is
  reduced with an explicit `% 2 ^ 64`.
* `args->ci` points at the live counter record of the instance; the record is
  carried inside `stress_args_t` and the updating functions return the new
  `stress_args_t`.
* The global `g_stress_continue_flag` is a field of an explicit `Globals`
  record that is passed to the functions that read or write it.
* Functions declared outside the files at hand (`stress_lock_acquire`,
  `socket`, `sendto`, `stress_net_reserve_ports`, ...) are represented by the
  values they return, supplied as arguments, and by a record of the calls made.
-/

namespace StressNg

/-! ## Data model -/

/-- The modulus of `uint64_t` arithmetic. -/
def UINT64_MOD : Nat := 2 ^ 64

/-- Record `stress_counter_info_t` (stress-ng.h, lines 359-364). -/
structure stress_counter_info_t where
  /-- bogo-op counter, a `uint64_t` -/
  counter : Nat
  /-- ready flag -/
  counter_ready : Bool
  /-- stressor run w/o issues -/
  run_ok : Bool
  /-- true if sent SIGKILL -/
  force_killed : Bool
  deriving DecidableEq, Repr

/-- The `data` member of `stress_checksum_t`: the copy of the counter record
followed by the `reserved[7]` padding bytes. -/
structure stress_checksum_data_t where
  /-- Copy of stats counter info ci -/
  ci : stress_counter_info_t
  /-- Padding, `uint8_t reserved[7]` -/
  reserved : List Nat
  deriving DecidableEq, Repr

/-- Record `stress_checksum_t` (stress-ng.h, lines 372-378). -/
structure stress_checksum_t where
  data : stress_checksum_data_t
  /-- Hash of data, a `uint32_t` -/
  hash : Nat
  deriving DecidableEq, Repr

/-- The fields of `stress_args_t` (stress-ng.h, lines 420-433) used by the
counter helpers and by `stress_udp_flood`.  `ci` is the record that the C
pointer `args->ci` designates; `instance_no` is the C field `instance`. -/
structure stress_args_t where
  ci : stress_counter_info_t
  /-- max number of bogo ops, a `uint64_t` -/
  max_ops : Nat
  /-- stressor instance #, a `uint32_t` -/
  instance_no : Nat
  deriving DecidableEq, Repr

/-- The global option settings and flags of stress-ng.h, lines 787-793. -/
structure Globals where
  /-- timeout in seconds -/
  g_opt_timeout : Nat
  /-- option flags -/
  g_opt_flags : Nat
  /-- false to exit stressor -/
  g_stress_continue_flag : Bool
  deriving DecidableEq, Repr

/-! ## The continue flag -/

/-- Function `stress_continue_flag()`: get stress_continue_flag state. -/
def stress_continue_flag (g : Globals) : Bool :=
  g.g_stress_continue_flag

/-- Function `stress_continue_set_flag()`: set stress_continue_flag state. -/
def stress_continue_set_flag (g : Globals) (setting : Bool) : Globals :=
  { g with g_stress_continue_flag := setting }

/-! ## The bogo-op counter protocol, store by store -/

/-- The statements that occur in the bodies of the counter helpers, in the
order the C source writes them. -/
inductive Store where
  /-- `ci->counter_ready = b;` -/
  | counter_ready (b : Bool)
  /-- `stress_asm_mb();` -/
  | asm_mb
  /-- `ci->counter += inc;` -/
  | counter_add (inc : Nat)
  /-- `ci->counter++;` -/
  | counter_incr
  /-- `ci->counter = val;` -/
  | counter_assign (val : Nat)
  deriving DecidableEq, Repr

/-- Effect of one statement on the counter record.  The memory barrier does
not change any field. -/
def Store.exec (s : Store) (ci : stress_counter_info_t) : stress_counter_info_t :=
  match s with
  | Store.counter_ready b => { ci with counter_ready := b }
  | Store.asm_mb => ci
  | Store.counter_add inc => { ci with counter := (ci.counter + inc) % UINT64_MOD }
  | Store.counter_incr => { ci with counter := (ci.counter + 1) % UINT64_MOD }
  | Store.counter_assign val => { ci with counter := val }

/-- True for the statements that write `ci->counter`. -/
def Store.writes_counter (s : Store) : Bool :=
  match s with
  | Store.counter_add _ => true
  | Store.counter_incr => true
  | Store.counter_assign _ => true
  | _ => false

/-- Run a sequence of statements from left to right. -/
def exec_stores (body : List Store) (ci : stress_counter_info_t) : stress_counter_info_t :=
  body.foldl (fun c s => s.exec c) ci

/-- Body of `stress_bogo_add` (stress-ng.h, lines 825-829). -/
def stress_bogo_add_body (inc : Nat) : List Store :=
  [Store.counter_ready false, Store.asm_mb, Store.counter_add inc, Store.asm_mb,
   Store.counter_ready true]

/-- Body of `stress_bogo_inc` (stress-ng.h, lines 844-848). -/
def stress_bogo_inc_body : List Store :=
  [Store.counter_ready false, Store.asm_mb, Store.counter_incr, Store.asm_mb,
   Store.counter_ready true]

/-- Body of `stress_bogo_set` (stress-ng.h, lines 874-878). -/
def stress_bogo_set_body (val : Nat) : List Store :=
  [Store.counter_ready false, Store.asm_mb, Store.counter_assign val, Store.asm_mb,
   Store.counter_ready true]

/-- Function `stress_bogo_add()`: add inc to the stressor bogo ops counter. -/
def stress_bogo_add (args : stress_args_t) (inc : Nat) : stress_args_t :=
  { args with ci := exec_stores (stress_bogo_add_body inc) args.ci }

/-- Function `stress_bogo_inc()`: increment the stressor bogo ops counter. -/
def stress_bogo_inc (args : stress_args_t) : stress_args_t :=
  { args with ci := exec_stores stress_bogo_inc_body args.ci }

/-- Function `stress_bogo_get()`: get the stressor bogo ops counter. -/
def stress_bogo_get (args : stress_args_t) : Nat :=
  args.ci.counter

/-- Function `stress_bogo_set()`: set the stressor bogo ops counter. -/
def stress_bogo_set (args : stress_args_t) (val : Nat) : stress_args_t :=
  { args with ci := exec_stores (stress_bogo_set_body val) args.ci }

/-- Function `stress_force_killed_bogo()`: note that the process is force
killed. -/
def stress_force_killed_bogo (args : stress_args_t) : stress_args_t :=
  { args with ci := { args.ci with force_killed := true } }

/-- Function `stress_continue()`: returns true if we can keep on running a
stressor. -/
def stress_continue (g : Globals) (args : stress_args_t) : Bool :=
  if !g.g_stress_continue_flag then false
  else if args.max_ops == 0 then true
  else decide (stress_bogo_get args < args.max_ops)

/-! ## Locked counter updates -/

/-- Calls made on the lock handle, in program order. -/
inductive LockCall where
  | acquire
  | release
  deriving DecidableEq, Repr

/-- Conversion of an `int64_t` argument to the `uint64_t` parameter of
`stress_bogo_add`. -/
def int64_to_uint64 (val : Int) : Nat :=
  (val % (UINT64_MOD : Int)).toNat

/-- Function `stress_bogo_add_lock()`.  `stress_lock_acquire` is declared
outside this header; its return value is the parameter `acquire_ret`.  The
result is the new `args` and the calls made on the lock. -/
def stress_bogo_add_lock (args : stress_args_t) (acquire_ret : Int) (val : Int) :
    stress_args_t × List LockCall :=
  if acquire_ret < 0 then
    (args, [LockCall.acquire])
  else
    (stress_bogo_add args (int64_to_uint64 val), [LockCall.acquire, LockCall.release])

/-- Function `stress_bogo_inc_lock()`.  The result is the returned boolean,
the new `args` and the calls made on the lock. -/
def stress_bogo_inc_lock (g : Globals) (args : stress_args_t) (acquire_ret : Int)
    (inc : Bool) : Bool × stress_args_t × List LockCall :=
  if acquire_ret < 0 then
    (stress_continue g args, args, [LockCall.acquire])
  else
    let ret := stress_continue g args
    let args1 := if inc && ret then stress_bogo_inc args else args
    (ret, args1, [LockCall.acquire, LockCall.release])

/-! ## Sequences of counter updates -/

/-- One call of a counter helper that writes `ci->counter`. -/
inductive BogoOp where
  /-- `stress_bogo_add(args, inc)` -/
  | add (inc : Nat)
  /-- `stress_bogo_inc(args)` -/
  | inc
  /-- `stress_bogo_set(args, val)` -/
  | set (val : Nat)
  deriving DecidableEq, Repr

/-- The statements executed by one call. -/
def BogoOp.body (op : BogoOp) : List Store :=
  match op with
  | BogoOp.add n => stress_bogo_add_body n
  | BogoOp.inc => stress_bogo_inc_body
  | BogoOp.set val => stress_bogo_set_body val

/-- Perform one call on `args`. -/
def BogoOp.apply (op : BogoOp) (args : stress_args_t) : stress_args_t :=
  match op with
  | BogoOp.add n => stress_bogo_add args n
  | BogoOp.inc => stress_bogo_inc args
  | BogoOp.set val => stress_bogo_set args val

/-- Perform a sequence of calls, first element first. -/
def run_bogo_ops (args : stress_args_t) (ops : List BogoOp) : stress_args_t :=
  ops.foldl (fun a op => op.apply a) args

/-- The amount a call asks to add to the counter: `inc` for an add, one for an
increment, nothing for a set. -/
def BogoOp.increment (op : BogoOp) : Nat :=
  match op with
  | BogoOp.add n => n
  | BogoOp.inc => 1
  | BogoOp.set _ => 0

/-- True for `stress_bogo_set` calls. -/
def BogoOp.is_set (op : BogoOp) : Bool :=
  match op with
  | BogoOp.set _ => true
  | _ => false

/-- Sum of the increments of a sequence of calls. -/
def increments_sum (ops : List BogoOp) : Nat :=
  (ops.map BogoOp.increment).sum

/-- The state of the operation after its first `n` statements. -/
def state_after (op : BogoOp) (n : Nat) (ci : stress_counter_info_t) :
    stress_counter_info_t :=
  exec_stores (op.body.take n) ci

/-! ## The checksum record of an instance -/

/-- The memory of one instance that the counter helpers and the checksum
check refer to: the live `args` (with the record behind `args->ci`) and the
`stress_checksum_t` record, which the header places "in a different shared
memory region". -/
structure instance_mem_t where
  args : stress_args_t
  checksum : stress_checksum_t
  deriving DecidableEq, Repr

/-- One call of a helper that writes the counter record. -/
inductive CounterUpdate where
  /-- One of `stress_bogo_add`, `stress_bogo_inc`, `stress_bogo_set` -/
  | bogo (op : BogoOp)
  /-- `stress_force_killed_bogo(args)` -/
  | force_killed
  deriving DecidableEq, Repr

/-- Perform one call on the memory of the instance.  Every helper writes
through `args->ci` only. -/
def CounterUpdate.apply (u : CounterUpdate) (m : instance_mem_t) : instance_mem_t :=
  match u with
  | CounterUpdate.bogo op => { m with args := op.apply m.args }
  | CounterUpdate.force_killed => { m with args := stress_force_killed_bogo m.args }

/-- The operations on C `double` values used by `stress_udp_flood`.  They are
parameters of the model, so that the results hold for IEEE arithmetic as well
as for exact arithmetic. -/
structure DoubleOps (D : Type) where
  /-- The literal `0.0` -/
  zero : D
  /-- Conversion of an unsigned integer to `double` -/
  of_uint64 : Nat → D
  /-- Subtraction `a - b` -/
  sub : D → D → D
  /-- Division `a / b` -/
  div : D → D → D
  /-- Comparison `a > b` -/
  gt : D → D → Bool

/-- One call `stress_metrics_set(args, idx, description, value)`. -/
structure metric_call_t (D : Type) where
  idx : Nat
  description : String
  value : D

/-- What the metrics tail of `stress_udp_flood` does: the calls of
`stress_metrics_set` in program order, and the divisions that were evaluated,
each as the pair (dividend, divisor), in program order. -/
structure metrics_result_t (D : Type) where
  calls : List (metric_call_t D)
  divisions : List (D × D)

/-- Lines 171-176 of `stress_udp_flood`.  `t` is the time taken before the
loop, `t_end` the value of `stress_time_now()` after it, `bytes` the
accumulated byte count, and `get_counter(args)` is the counter read
(`stress_bogo_get` in the header at hand).  `MB` is `1ULL << 20` in the header
(line 494); the model takes its value as a parameter.  The conditional operator evaluates only the selected operand, so
the divisions are recorded only in the branch that performs them. -/
def stress_udp_flood_metrics {D : Type} (F : DoubleOps D) (MB : Nat)
    (args : stress_args_t) (bytes t t_end : D) : metrics_result_t D :=
  let duration := F.sub t_end t
  let r0 : D × List (D × D) :=
    if F.gt duration F.zero then
      (F.div (F.div bytes duration) (F.of_uint64 MB),
       [(bytes, duration), (F.div bytes duration, F.of_uint64 MB)])
    else (F.zero, [])
  let r1 : D × List (D × D) :=
    if F.gt duration F.zero then
      (F.div (F.of_uint64 (stress_bogo_get args)) duration,
       [(F.of_uint64 (stress_bogo_get args), duration)])
    else (F.zero, [])
  { calls := [⟨0, "MB per sec sendto rate", r0.1⟩, ⟨1, "sendto calls per sec", r1.1⟩],
    divisions := r0.2 ++ r1.2 }

/-- Exact rational arithmetic as an instance of the `double` operations. -/
def rat_ops : DoubleOps ℚ where
  zero := 0
  of_uint64 := fun n => (n : ℚ)
  sub := fun a b => a - b
  div := fun a b => a / b
  gt := fun a b => decide (b < a)

/-! ## Bit arrays and the port map -/

/-- The value of `sizeof(uint8_t)`. -/
def sizeof_uint8_t : Nat := 1

/-- Macro `STRESS_NBITS(a)`: `sizeof(a[0]) * 8`, with the size of an element as
argument. -/
def STRESS_NBITS (sizeof_elem : Nat) : Nat := sizeof_elem * 8

/-- Number of elements of `g_shared->net_port_map.allocated`, declared as
`uint8_t allocated[65536 / sizeof(uint8_t)]` (stress-ng.h, line 737). -/
def net_port_map_allocated_len : Nat := 65536 / sizeof_uint8_t

/-- Total capacity of the port map in bits: its number of elements times
`STRESS_NBITS` of an element. -/
def net_port_map_capacity_bits : Nat :=
  net_port_map_allocated_len * STRESS_NBITS sizeof_uint8_t

/-- The value `(TYPEOF_CAST(a[0])1U << (i & (STRESS_NBITS(a)-1)))` for an array
of `uint8_t`: the one is promoted to a 32-bit integer before the shift. -/
def stress_bit_mask (i : Nat) : Nat :=
  1 <<< (i &&& (STRESS_NBITS sizeof_uint8_t - 1))

/-- Bitwise complement `~m` of a 32-bit integer, as a bit pattern. -/
def not32 (m : Nat) : Nat := 2 ^ 32 - (m + 1)

/-- Macro `STRESS_GETBIT(a, i)` on an array of `uint8_t`.  The array is a
list of bytes; an index past its end is undefined in C and reads 0 here. -/
def STRESS_GETBIT (a : List Nat) (i : Nat) : Nat :=
  a.getD (i / STRESS_NBITS sizeof_uint8_t) 0 &&& stress_bit_mask i

/-- Macro `STRESS_CLRBIT(a, i)` on an array of `uint8_t`: the element is
and-ed with the complement of the mask and stored back as a `uint8_t`. -/
def STRESS_CLRBIT (a : List Nat) (i : Nat) : List Nat :=
  a.set (i / STRESS_NBITS sizeof_uint8_t)
    ((a.getD (i / STRESS_NBITS sizeof_uint8_t) 0 &&& not32 (stress_bit_mask i)) % 2 ^ 8)

/-- Macro `STRESS_SETBIT(a, i)` on an array of `uint8_t`: the element is
or-ed with the mask and stored back as a `uint8_t`. -/
def STRESS_SETBIT (a : List Nat) (i : Nat) : List Nat :=
  a.set (i / STRESS_NBITS sizeof_uint8_t)
    ((a.getD (i / STRESS_NBITS sizeof_uint8_t) 0 ||| stress_bit_mask i) % 2 ^ 8)

/-! ## Stressor classes -/

/-- Macro `STRESS_BIT_UL(shift)`: `1UL << (shift)`. -/
def STRESS_BIT_UL (shift : Nat) : Nat := 1 <<< shift

/-- CPU only -/
def CLASS_CPU : Nat := STRESS_BIT_UL 0
/-- Memory thrashers -/
def CLASS_MEMORY : Nat := STRESS_BIT_UL 1
/-- CPU cache -/
def CLASS_CPU_CACHE : Nat := STRESS_BIT_UL 2
/-- I/O read/writes etc -/
def CLASS_IO : Nat := STRESS_BIT_UL 3
/-- Network, sockets, etc -/
def CLASS_NETWORK : Nat := STRESS_BIT_UL 4
/-- Scheduling -/
def CLASS_SCHEDULER : Nat := STRESS_BIT_UL 5
/-- VM stress, big memory, swapping -/
def CLASS_VM : Nat := STRESS_BIT_UL 6
/-- Interrupt floods -/
def CLASS_INTERRUPT : Nat := STRESS_BIT_UL 7
/-- Generic OS tests -/
def CLASS_OS : Nat := STRESS_BIT_UL 8
/-- Pipe I/O -/
def CLASS_PIPE_IO : Nat := STRESS_BIT_UL 9
/-- File system -/
def CLASS_FILESYSTEM : Nat := STRESS_BIT_UL 10
/-- Device (null, zero, etc) -/
def CLASS_DEV : Nat := STRESS_BIT_UL 11
/-- Security APIs -/
def CLASS_SECURITY : Nat := STRESS_BIT_UL 12
/-- Can hang a machine -/
def CLASS_PATHOLOGICAL : Nat := STRESS_BIT_UL 13
/-- GPU -/
def CLASS_GPU : Nat := STRESS_BIT_UL 14

/-- The fifteen class constants in the order of stress-ng.h, lines 336-350. -/
def stress_classes : List Nat :=
  [CLASS_CPU, CLASS_MEMORY, CLASS_CPU_CACHE, CLASS_IO, CLASS_NETWORK, CLASS_SCHEDULER,
   CLASS_VM, CLASS_INTERRUPT, CLASS_OS, CLASS_PIPE_IO, CLASS_FILESYSTEM, CLASS_DEV,
   CLASS_SECURITY, CLASS_PATHOLOGICAL, CLASS_GPU]

/-- The member `.class` of `stress_udp_flood_info` (both variants of the
initialiser give `CLASS_NETWORK | CLASS_OS`), stored in the 32-bit
`stress_class_t`. -/
def stress_udp_flood_info_class : Nat := (CLASS_NETWORK ||| CLASS_OS) % 2 ^ 32

/-! ## Stack alignment -/

/-- Bitwise complement `~x` of a `uintptr_t` (64 bits), as a bit pattern. -/
def not_uintptr (x : Nat) : Nat := 2 ^ 64 - (x + 1)

/-- Function `stress_align_stack()`: `(uintptr_t)stack_top & ~(uintptr_t)0xf`. -/
def stress_align_stack (stack_top : Nat) : Nat :=
  stack_top &&& not_uintptr 0xf

/-! ## The UDP flood stressor -/

/-- Exit status `EXIT_SUCCESS` of stdlib.h (stress-ng.h, line 190, refers to
it; the numbering of the header continues at 2). -/
def EXIT_SUCCESS : Int := 0
/-- Exit status `EXIT_FAILURE` of stdlib.h. -/
def EXIT_FAILURE : Int := 1
/-- Exit status `EXIT_NOT_SUCCESS` (stress-ng.h, line 191). -/
def EXIT_NOT_SUCCESS : Int := 2
/-- Exit status `EXIT_NO_RESOURCE`. -/
def EXIT_NO_RESOURCE : Int := 3
/-- Exit status `EXIT_NOT_IMPLEMENTED`. -/
def EXIT_NOT_IMPLEMENTED : Int := 4
/-- Exit status `EXIT_SIGNALED`. -/
def EXIT_SIGNALED : Int := 5
/-- Exit status `EXIT_BY_SYS_EXIT`. -/
def EXIT_BY_SYS_EXIT : Int := 6
/-- Exit status `EXIT_METRICS_UNTRUSTWORTHY`. -/
def EXIT_METRICS_UNTRUSTWORTHY : Int := 7

/-- The exit-status vocabulary: stdlib.h's two codes and the six of
stress-ng.h, lines 191-196. -/
def exit_status_vocabulary : List Int :=
  [EXIT_SUCCESS, EXIT_FAILURE, EXIT_NOT_SUCCESS, EXIT_NO_RESOURCE, EXIT_NOT_IMPLEMENTED,
   EXIT_SIGNALED, EXIT_BY_SYS_EXIT, EXIT_METRICS_UNTRUSTWORTHY]

/-- Constant `MAX_UDP_SIZE` (stress-udp-flood.c, line 30). -/
def MAX_UDP_SIZE : Nat := 2048

/-- Macro `STRESS_MINIMUM(a,b)`: `(((a) < (b)) ? (a) : (b))`. -/
def STRESS_MINIMUM (a b : Nat) : Nat := if a < b then a else b

/-- The `double` operations of `stress_udp_flood` with the two more that its
loop uses on `bytes`. -/
structure DoubleSumOps (D : Type) extends DoubleOps D where
  /-- Addition `a + b` -/
  add : D → D → D
  /-- Conversion `(double)n` of an `ssize_t` -/
  of_ssize : Int → D

/-- Exact rational arithmetic for the loop. -/
def rat_sum_ops : DoubleSumOps ℚ where
  toDoubleOps := rat_ops
  add := fun a b => a + b
  of_ssize := fun n => (n : ℚ)

/-- The calls that the loop of `stress_udp_flood` makes, with their arguments
and, where the loop reads it, their result. -/
inductive udp_call where
  /-- `stress_net_reserve_ports(port, port)` returned `ret` -/
  | reserve_ports (port : Int) (ret : Int)
  /-- `stress_set_sockaddr_port(udp_flood_domain, port, addr)` -/
  | set_sockaddr_port (port : Int)
  /-- `shim_memset(buf, stress_ascii64[idx], sz)` -/
  | memset (idx : Nat) (sz : Nat)
  /-- `sendto(fd, buf, sz, 0, addr, addr_len)` returned `n` -/
  | sendto (sz : Nat) (n : Int)
  /-- `inc_counter(args)` -/
  | inc_counter
  /-- `ioctl(fd, SIOCOUTQ, &pending)` -/
  | ioctl_outq
  /-- `stress_net_release_ports(port, port)` -/
  | release_ports (port : Int)
  /-- `keep_stressing(args)` returned `ret` -/
  | keep_stressing (ret : Bool)
  deriving DecidableEq, Repr

/-- What the environment supplies during one iteration of the loop: the
results of the external calls and the globals as they are at the two
`keep_stressing` checks (the flag is written asynchronously). -/
structure udp_iter_env where
  /-- Result of `stress_net_reserve_ports(port, port)` (line 126) -/
  reserved_port : Int
  /-- Result of the first `sendto` (line 133) -/
  n : Int
  /-- Globals at the check of line 150 -/
  g_mid : Globals
  /-- Result of `stress_mwc16modn(65535 - 1024)` (line 153) -/
  mwc : Nat
  /-- Result of `stress_net_reserve_ports(rand_port, rand_port)` (line 154) -/
  reserved_rand_port : Int
  /-- Result of the second `sendto` (line 159) -/
  n_rand : Int
  /-- Globals at the check of line 168 -/
  g_end : Globals
  deriving DecidableEq, Repr

/-- The variables of `stress_udp_flood` that the loop changes.  `j` counts
without the `int` overflow of the C variable. -/
structure udp_loop_state (D : Type) where
  args : stress_args_t
  port : Int
  j : Nat
  sz : Nat
  bytes : D

/-- Outcome of one iteration: the variables, the calls made, and whether the
iteration left the loop through a `break`. -/
structure udp_iter_result (D : Type) where
  state : udp_loop_state D
  calls : List udp_call
  leave : Bool

/-- The block `if (LIKELY(n > 0)) { inc_counter(args); bytes += (double)n; }`
(lines 134-137 and 160-163); `inc_counter` is `stress_bogo_inc` of the header
at hand. -/
def udp_sent {D : Type} (F : DoubleSumOps D) (n : Int) (args : stress_args_t) (bytes : D) :
    stress_args_t × D × List udp_call :=
  if n > 0 then
    (stress_bogo_inc args, F.add bytes (F.of_ssize n), [udp_call.inc_counter])
  else
    (args, bytes, [])

/-- The label `next:` (lines 167-169): the check that ends an iteration;
`keep_stressing` is `stress_continue` of the header at hand. -/
def udp_next {D : Type} (e : udp_iter_env) (s : udp_loop_state D) (calls : List udp_call) :
    udp_iter_result D :=
  let k := stress_continue e.g_end s.args
  { state := s, calls := calls ++ [udp_call.keep_stressing k], leave := !k }

/-- The body of the loop `for (;;)` of `stress_udp_flood` (lines 118-170). -/
def udp_flood_iteration {D : Type} (sz_max : Nat) (F : DoubleSumOps D) (e : udp_iter_env)
    (s : udp_loop_state D) : udp_iter_result D :=
  -- if (UNLIKELY(++port > 65535)) port = 1024;
  let port1 : Int := if s.port + 1 > 65535 then 1024 else s.port + 1
  -- reserved_port = stress_net_reserve_ports(port, port);
  let c0 := [udp_call.reserve_ports port1 e.reserved_port]
  if e.reserved_port < 0 then
    -- goto next
    udp_next e { s with port := port1 } c0
  else
    -- port = reserved_port;
    let port2 := e.reserved_port
    let sent1 := udp_sent F e.n s.args s.bytes
    let c1 := c0 ++ [udp_call.set_sockaddr_port port2, udp_call.memset (s.j &&& 63) s.sz,
        udp_call.sendto s.sz e.n] ++ sent1.2.2
      ++ (if port2.toNat &&& 0x1f = 0 then [udp_call.ioctl_outq] else [])
      ++ [udp_call.release_ports port2]
    let s1 : udp_loop_state D :=
      { args := sent1.1, port := port2, j := s.j + 1, sz := s.sz, bytes := sent1.2.1 }
    -- if (!keep_stressing(args)) break;
    if !(stress_continue e.g_mid s1.args) then
      { state := s1, calls := c1 ++ [udp_call.keep_stressing false], leave := true }
    else
      -- rand_port = 1024 + stress_mwc16modn(65535 - 1024);
      let rand_port : Int := 1024 + (e.mwc : Int)
      let c2 := c1 ++ [udp_call.keep_stressing true,
        udp_call.reserve_ports rand_port e.reserved_rand_port]
      if e.reserved_rand_port < 0 then
        -- goto next
        udp_next e s1 c2
      else
        -- rand_port = reserved_port;
        let rand_port2 := e.reserved_rand_port
        let sent2 := udp_sent F e.n_rand s1.args s1.bytes
        let c3 := c2 ++ [udp_call.set_sockaddr_port rand_port2,
            udp_call.sendto s1.sz e.n_rand] ++ sent2.2.2
          ++ [udp_call.release_ports rand_port2]
        -- if (UNLIKELY(++sz >= sz_max)) sz = 1;
        let sz1 := if s1.sz + 1 ≥ sz_max then 1 else s1.sz + 1
        udp_next e { s1 with args := sent2.1, sz := sz1, bytes := sent2.2.1 } c3

/-- The loop `for (;;)`: one element of `envs` is consumed per iteration.  The
result is the state at the `break` and the calls of each iteration, or `none`
when the loop has not left after the iterations that `envs` describes. -/
def udp_flood_loop {D : Type} (sz_max : Nat) (F : DoubleSumOps D) :
    List udp_iter_env → udp_loop_state D → Option (udp_loop_state D × List (List udp_call))
  | [], _ => none
  | e :: es, s =>
    let r := udp_flood_iteration sz_max F e s
    if r.leave then some (r.state, [r.calls])
    else
      match udp_flood_loop sz_max F es r.state with
      | none => none
      | some (s1, cs) => some (s1, r.calls :: cs)

/-- What the environment supplies to one run of `stress_udp_flood`. -/
structure udp_flood_env (D : Type) where
  /-- Result of `socket()` -/
  socket_ret : Int
  /-- Value of `errno` after a failed `socket()` -/
  socket_errno : Int
  /-- Result of `stress_set_sockaddr_if()` -/
  sockaddr_if_ret : Int
  /-- Result of `stress_time_now()` before the loop -/
  t : D
  /-- Result of `stress_time_now()` after the loop -/
  t_end : D
  /-- The iterations of the loop -/
  iterations : List udp_iter_env

/-- What a run of `stress_udp_flood` leaves: the returned status, the final
`args`, the calls of each iteration, `bytes`, and the metrics set. -/
structure udp_flood_result (D : Type) where
  rc : Int
  args : stress_args_t
  calls : List (List udp_call)
  bytes : D
  metrics : List (metric_call_t D)

/-- Function `stress_udp_flood()` (stress-udp-flood.c, lines 72-183).  The
errno value `EPROTONOSUPPORT` comes from a system header and is a parameter,
as is the value of `MB` (`1ULL << 20` in stress-ng.h, line 494).  The result is `none` when the loop does not leave within
`env.iterations`. -/
def stress_udp_flood {D : Type} (F : DoubleSumOps D) (MB : Nat) (EPROTONOSUPPORT : Int)
    (env : udp_flood_env D) (args : stress_args_t) : Option (udp_flood_result D) :=
  let rc := EXIT_SUCCESS
  let sz_max := STRESS_MINIMUM ((23 + args.instance_no) % 2 ^ 32) MAX_UDP_SIZE
  if env.socket_ret < 0 then
    if env.socket_errno = EPROTONOSUPPORT then
      some { rc := EXIT_NOT_IMPLEMENTED, args := args, calls := [], bytes := F.zero,
             metrics := [] }
    else
      some { rc := EXIT_FAILURE, args := args, calls := [], bytes := F.zero, metrics := [] }
  else
    match udp_flood_loop sz_max F env.iterations
        { args := args, port := 1024, j := 0, sz := 1, bytes := F.zero } with
    | none => none
    | some (s, calls) =>
      some { rc := rc, args := s.args, calls := calls, bytes := s.bytes,
             metrics := (stress_udp_flood_metrics F.toDoubleOps MB s.args s.bytes
               env.t env.t_end).calls }

/-- The calls of all iterations of a run, in program order. -/
def all_calls (calls : List (List udp_call)) : List udp_call :=
  calls.foldr (fun cs acc => cs ++ acc) []

/-- True when a `keep_stressing` check occurs in the sequence of calls before
any `inc_counter`. -/
def check_before_next_inc : List udp_call → Bool
  | [] => false
  | udp_call.keep_stressing _ :: _ => true
  | udp_call.inc_counter :: _ => false
  | _ :: rest => check_before_next_inc rest

/-- True when every `inc_counter` in the sequence of calls is followed by a
`keep_stressing` check that comes before the next `inc_counter`. -/
def check_follows_each_inc : List udp_call → Bool
  | [] => true
  | udp_call.inc_counter :: rest => check_before_next_inc rest && check_follows_each_inc rest
  | _ :: rest => check_follows_each_inc rest

/-- An iteration in which both reservations succeed, both `sendto` calls send
one byte and the continue flag is true at both checks. -/
def udp_iter_env_two_sends : udp_iter_env :=
  ⟨1025, 1, ⟨0, 0, true⟩, 7, 1031, 1, ⟨0, 0, true⟩⟩

/-- A run of 500 such iterations after a successful `socket()`. -/
def udp_flood_env_500 : udp_flood_env ℚ :=
  ⟨3, 0, 0, 0, 2, List.replicate 500 udp_iter_env_two_sends⟩

/-- A sequence of `stress_bogo_inc_lock` calls on one instance; each call
comes with the globals at the time of the call, the result of
`stress_lock_acquire` and the argument `inc`.  The result is the final `args`
and the values returned by the calls, in order. -/
def run_bogo_inc_lock (args : stress_args_t) :
    List (Globals × Int × Bool) → stress_args_t × List Bool
  | [] => (args, [])
  | c :: rest =>
    let r := stress_bogo_inc_lock c.1 args c.2.1 c.2.2
    let rr := run_bogo_inc_lock r.2.1 rest
    (rr.1, r.1 :: rr.2)

/-- The statement `if (UNLIKELY(++sz >= sz_max)) sz = 1;` (lines 165-166) as a
function of `sz`. -/
def sz_step (sz_max sz : Nat) : Nat := if sz + 1 ≥ sz_max then 1 else sz + 1

/-- The statement `if (UNLIKELY(++port > 65535)) port = 1024;` (lines 123-124)
as a function of `port`. -/
def next_port (port : Int) : Int := if port + 1 > 65535 then 1024 else port + 1

/-- True when the payload length of every `shim_memset` and `sendto` among
the calls lies in `[lo, hi]`. -/
def payload_sizes_in (lo hi : Nat) (calls : List udp_call) : Bool :=
  calls.all (fun c =>
    match c with
    | udp_call.memset _ sz => decide (lo ≤ sz ∧ sz ≤ hi)
    | udp_call.sendto sz _ => decide (lo ≤ sz ∧ sz ≤ hi)
    | _ => true)

/-- True when every port passed to `stress_net_reserve_ports`,
`stress_set_sockaddr_port` or `stress_net_release_ports` among the calls lies
in `[lo, hi]`. -/
def ports_in (lo hi : Int) (calls : List udp_call) : Bool :=
  calls.all (fun c =>
    match c with
    | udp_call.reserve_ports p _ => decide (lo ≤ p ∧ p ≤ hi)
    | udp_call.set_sockaddr_port p => decide (lo ≤ p ∧ p ≤ hi)
    | udp_call.release_ports p => decide (lo ≤ p ∧ p ≤ hi)
    | _ => true)

/-- True when every `stress_net_reserve_ports(p, p)` among the calls returned
a negative value or `p`. -/
def reserve_returns_requested (calls : List udp_call) : Bool :=
  calls.all (fun c =>
    match c with
    | udp_call.reserve_ports p ret => decide (ret < 0 ∨ ret = p)
    | _ => true)

/-- The calls of an iteration that come after its first `keep_stressing`
check: the calls made with the random port. -/
def calls_after_check : List udp_call → List udp_call
  | [] => []
  | udp_call.keep_stressing _ :: rest => rest
  | _ :: rest => calls_after_check rest

/-- The port of the first call of an iteration when that call is
`stress_net_reserve_ports`: the sequential port. -/
def sequential_port (calls : List udp_call) : Option Int :=
  match calls with
  | udp_call.reserve_ports p _ :: _ => some p
  | _ => none

/-- True when the sequential port of each iteration is `next_port` of the
sequential port of the iteration before, and that of the first iteration is
`next_port start`. -/
def sequential_ports_step (start : Int) : List (List udp_call) → Bool
  | [] => true
  | it :: rest =>
    match sequential_port it with
    | some p => decide (p = next_port start) && sequential_ports_step p rest
    | none => false

/-- The port held after a sequence of calls, starting with `held`; the result
is `none` when the calls break the reservation discipline: a reservation
attempt or a `keep_stressing` check while a port is held, or a release of a
port that is not the one held. -/
def held_after (held : Option Int) : List udp_call → Option (Option Int)
  | [] => some held
  | udp_call.reserve_ports _ ret :: rest =>
    match held with
    | some _ => none
    | none => if ret < 0 then held_after none rest else held_after (some ret) rest
  | udp_call.release_ports p :: rest =>
    if held = some p then held_after none rest else none
  | udp_call.keep_stressing _ :: rest =>
    match held with
    | some _ => none
    | none => held_after none rest
  | _ :: rest => held_after held rest

/-- A run of three iterations after a successful `socket()`: the first
reservation fails; the second iteration reserves port 1026, its `sendto`
fails and the reservation of the random port 1031 fails; the third reserves
port 1027, sends one byte and finds the continue flag cleared. -/
def udp_flood_env_three : udp_flood_env ℚ :=
  ⟨3, 0, 0, 0, 2,
    [⟨-1, 1, ⟨0, 0, true⟩, 7, 1031, 1, ⟨0, 0, true⟩⟩,
     ⟨1026, 0, ⟨0, 0, true⟩, 7, -1, 1, ⟨0, 0, true⟩⟩,
     ⟨1027, 1, ⟨0, 0, false⟩, 7, 1031, 1, ⟨0, 0, true⟩⟩]⟩

/-- C1: `stress_continue` returns true exactly when the global continue flag
is true and either `max_ops` is zero or the counter is below `max_ops`; in
particular it returns false whenever `max_ops` is nonzero and the counter has
reached `max_ops`. -/
theorem stress_continue_iff (g : Globals) (args : stress_args_t) :
    (stress_continue g args = true ↔
      g.g_stress_continue_flag = true ∧
        (args.max_ops = 0 ∨ args.ci.counter < args.max_ops)) ∧
    (args.max_ops ≠ 0 → args.max_ops ≤ args.ci.counter →
      stress_continue g args = false) := by
  have key : stress_continue g args = true ↔
      g.g_stress_continue_flag = true ∧
        (args.max_ops = 0 ∨ args.ci.counter < args.max_ops) := by
    unfold stress_continue stress_bogo_get
    cases hflag : g.g_stress_continue_flag
    · simp
    · by_cases h0 : args.max_ops = 0
      · simp [h0]
      · simp [h0]
  refine ⟨key, ?_⟩
  intro hne hle
  cases hc : stress_continue g args
  · rfl
  · rcases (key.mp hc).2 with h | h
    · exact absurd h hne
    · omega

/-- Instance of C1 with the flag set, `max_ops = 5` and `counter = 5`. -/
theorem stress_continue_iff_witness :
    (5 : Nat) ≠ 0 ∧ (5 : Nat) ≤ 5 ∧
    stress_continue ⟨0, 0, true⟩ ⟨⟨5, true, true, false⟩, 5, 0⟩ = false :=
  ⟨by decide, by decide,
   (stress_continue_iff ⟨0, 0, true⟩ ⟨⟨5, true, true, false⟩, 5, 0⟩).2
     (by decide) (by decide)⟩

/-- C2: after `stress_continue_set_flag(false)` every `stress_continue` call
returns false and `stress_continue_flag()` returns false; after
`stress_continue_set_flag(b)` the getter returns `b`. -/
theorem stress_continue_after_set_flag (g : Globals) (args : stress_args_t) (b : Bool) :
    stress_continue (stress_continue_set_flag g false) args = false ∧
    stress_continue_flag (stress_continue_set_flag g false) = false ∧
    stress_continue_flag (stress_continue_set_flag g b) = b := by
  refine ⟨?_, rfl, rfl⟩
  simp [stress_continue, stress_continue_set_flag]

/-- C5 (as amended): with `max_ops == 0`, `stress_continue` returns true when
the global continue flag holds true, and false when it holds false. -/
theorem stress_continue_unbounded (g : Globals) (args : stress_args_t)
    (h0 : args.max_ops = 0) :
    stress_continue g args = g.g_stress_continue_flag := by
  unfold stress_continue
  cases hflag : g.g_stress_continue_flag <;> simp [h0]

/-- Instance of the amended C5: flag true, `max_ops = 0`, counter 7. -/
theorem stress_continue_unbounded_witness :
    (0 : Nat) = 0 ∧
    stress_continue ⟨0, 0, true⟩ ⟨⟨7, true, true, false⟩, 0, 0⟩ = true :=
  ⟨rfl, stress_continue_unbounded ⟨0, 0, true⟩ ⟨⟨7, true, true, false⟩, 0, 0⟩ rfl⟩

/-- C5 as stated fails: with `max_ops == 0` and the flag holding false (global
`g_stress_continue_flag == false`, counter 0), `stress_continue` returns false,
so it is not true for every such state. -/
theorem stress_continue_flag_unset_counterexample :
    (⟨⟨0, true, true, false⟩, 0, 0⟩ : stress_args_t).max_ops = 0 ∧
    (⟨0, 0, false⟩ : Globals).g_stress_continue_flag = false ∧
    stress_continue ⟨0, 0, false⟩ ⟨⟨0, true, true, false⟩, 0, 0⟩ = false ∧
    ¬ (∀ (g : Globals) (args : stress_args_t), args.max_ops = 0 →
        g.g_stress_continue_flag = false → stress_continue g args = true) := by
  refine ⟨rfl, rfl, by decide, ?_⟩
  intro h
  have h1 := h ⟨0, 0, false⟩ ⟨⟨0, true, true, false⟩, 0, 0⟩ rfl rfl
  revert h1
  decide

/-! ## Theorems: the counter protocol -/

theorem UINT64_MOD_eq : UINT64_MOD = 2 ^ 64 := rfl

theorem BogoOp.apply_ci (op : BogoOp) (a : stress_args_t) :
    (op.apply a).ci = exec_stores op.body a.ci := by
  cases op <;> rfl

theorem exec_body_counter_ready (op : BogoOp) (ci : stress_counter_info_t) :
    (exec_stores op.body ci).counter_ready = true := by
  cases op <;> rfl

theorem exec_body_counter (op : BogoOp) (ci : stress_counter_info_t) :
    (exec_stores op.body ci).counter =
      match op with
      | BogoOp.add n => (ci.counter + n) % UINT64_MOD
      | BogoOp.inc => (ci.counter + 1) % UINT64_MOD
      | BogoOp.set v => v := by
  cases op <;> rfl

theorem exec_body_flags (op : BogoOp) (ci : stress_counter_info_t) :
    (exec_stores op.body ci).run_ok = ci.run_ok ∧
    (exec_stores op.body ci).force_killed = ci.force_killed := by
  cases op <;> exact ⟨rfl, rfl⟩

theorem run_bogo_ops_nil (a : stress_args_t) : run_bogo_ops a [] = a := rfl

theorem run_bogo_ops_cons (a : stress_args_t) (op : BogoOp) (ops : List BogoOp) :
    run_bogo_ops a (op :: ops) = run_bogo_ops (op.apply a) ops := rfl

theorem run_bogo_ops_append (a : stress_args_t) (xs ys : List BogoOp) :
    run_bogo_ops a (xs ++ ys) = run_bogo_ops (run_bogo_ops a xs) ys := by
  simp [run_bogo_ops, List.foldl_append]

theorem run_bogo_ops_ready (ops : List BogoOp) :
    ∀ a : stress_args_t, (a.ci.counter_ready = true ∨ ops ≠ []) →
      (run_bogo_ops a ops).ci.counter_ready = true := by
  induction ops with
  | nil => intro a h; simpa [run_bogo_ops_nil] using h
  | cons op ops ih =>
    intro a _
    rw [run_bogo_ops_cons]
    apply ih
    left
    rw [BogoOp.apply_ci]
    exact exec_body_counter_ready op a.ci

theorem run_bogo_ops_counter_mod (ops : List BogoOp) :
    ∀ a : stress_args_t, (∀ op ∈ ops, op.is_set = false) →
      (run_bogo_ops a ops).ci.counter % UINT64_MOD =
        (a.ci.counter + increments_sum ops) % UINT64_MOD := by
  induction ops with
  | nil => intro a _; simp [run_bogo_ops_nil, increments_sum]
  | cons op ops ih =>
    intro a h
    rw [run_bogo_ops_cons, ih _ (fun o ho => h o (List.mem_cons_of_mem _ ho))]
    have hop := h op (List.mem_cons_self _ _)
    rw [BogoOp.apply_ci, exec_body_counter]
    cases op with
    | add n =>
      simp only [increments_sum, List.map_cons, List.sum_cons, BogoOp.increment]
      rw [Nat.add_mod, Nat.mod_mod, ← Nat.add_mod]
      congr 1
      omega
    | inc =>
      simp only [increments_sum, List.map_cons, List.sum_cons, BogoOp.increment]
      rw [Nat.add_mod, Nat.mod_mod, ← Nat.add_mod]
      congr 1
      omega
    | set v => simp [BogoOp.is_set] at hop

theorem run_bogo_ops_counter_lt (ops : List BogoOp) :
    ∀ a : stress_args_t, (∀ v, BogoOp.set v ∈ ops → v < UINT64_MOD) →
      (a.ci.counter < UINT64_MOD ∨ ops ≠ []) →
      (run_bogo_ops a ops).ci.counter < UINT64_MOD := by
  induction ops with
  | nil => intro a _ h; simpa [run_bogo_ops_nil] using h
  | cons op ops ih =>
    intro a hv _
    rw [run_bogo_ops_cons]
    apply ih _ (fun v hm => hv v (List.mem_cons_of_mem _ hm))
    left
    rw [BogoOp.apply_ci, exec_body_counter]
    have hpos : 0 < UINT64_MOD := by simp [UINT64_MOD]
    cases op with
    | add n => exact Nat.mod_lt _ hpos
    | inc => exact Nat.mod_lt _ hpos
    | set v => exact hv v (List.mem_cons_self _ _)

/-- C3: after a non-empty sequence of `stress_bogo_add` / `stress_bogo_inc` /
`stress_bogo_set` calls (set values being `uint64_t`), `counter_ready` is true
and, for the split of the sequence into a part `pre` and a set-free rest
`suf`, the counter is the initial counter (when `pre` is empty) or the value
of the last set (when `pre` ends with it) plus the sum of the increments of
`suf`, modulo 2^64. -/
theorem bogo_ops_counter (args : stress_args_t) (ops : List BogoOp)
    (hne : ops ≠ []) (hval : ∀ v, BogoOp.set v ∈ ops → v < 2 ^ 64) :
    (run_bogo_ops args ops).ci.counter_ready = true ∧
    ∀ pre suf : List BogoOp, ops = pre ++ suf → (∀ op ∈ suf, op.is_set = false) →
      (pre = [] → (run_bogo_ops args ops).ci.counter =
        (args.ci.counter + increments_sum suf) % 2 ^ 64) ∧
      (∀ (pre0 : List BogoOp) (v : Nat), pre = pre0 ++ [BogoOp.set v] →
        (run_bogo_ops args ops).ci.counter = (v + increments_sum suf) % 2 ^ 64) := by
  rw [← UINT64_MOD_eq] at hval ⊢
  refine ⟨run_bogo_ops_ready ops args (Or.inr hne), ?_⟩
  intro pre suf hsplit hsuf
  have hlt : (run_bogo_ops args ops).ci.counter < UINT64_MOD :=
    run_bogo_ops_counter_lt ops args hval (Or.inr hne)
  constructor
  · intro hpre
    subst hpre
    simp only [List.nil_append] at hsplit
    subst hsplit
    rw [← run_bogo_ops_counter_mod ops args hsuf, Nat.mod_eq_of_lt hlt]
  · intro pre0 v hpre
    subst hpre
    subst hsplit
    rw [← Nat.mod_eq_of_lt hlt, run_bogo_ops_append, run_bogo_ops_counter_mod suf _ hsuf,
      run_bogo_ops_append]
    rfl

/-- Instance of C3: from counter 2^64 - 1, the calls set 5, add 3, inc leave
the counter at 9 with `counter_ready` true. -/
theorem bogo_ops_counter_witness :
    (run_bogo_ops ⟨⟨2 ^ 64 - 1, false, true, false⟩, 0, 0⟩
      [BogoOp.set 5, BogoOp.add 3, BogoOp.inc]).ci.counter_ready = true ∧
    (run_bogo_ops ⟨⟨2 ^ 64 - 1, false, true, false⟩, 0, 0⟩
      [BogoOp.set 5, BogoOp.add 3, BogoOp.inc]).ci.counter =
      (5 + increments_sum [BogoOp.add 3, BogoOp.inc]) % 2 ^ 64 := by
  have h := bogo_ops_counter ⟨⟨2 ^ 64 - 1, false, true, false⟩, 0, 0⟩
    [BogoOp.set 5, BogoOp.add 3, BogoOp.inc] (by simp)
    (by intro v hv; simp at hv; omega)
  exact ⟨h.1, ((h.2 [BogoOp.set 5] [BogoOp.add 3, BogoOp.inc] rfl
    (by intro op hop; simp at hop; rcases hop with rfl | rfl <;> rfl)).2 [] 5 rfl)⟩

/-- C4: in each of `stress_bogo_add`, `stress_bogo_inc`, `stress_bogo_set`,
taken as the sequence of its statements, there is exactly one store to
`counter`; it comes strictly after a store `counter_ready := false` and
strictly before a store `counter_ready := true`.  Hence in every state reached
before the operation has finished in which `counter` differs from its pre-call
value, `counter_ready` is false, and every statement that changes `counter`
starts from a state in which `counter_ready` is false. -/
theorem bogo_store_order (op : BogoOp) (ci : stress_counter_info_t) :
    (∃ i j k : Nat, i < j ∧ j < k ∧
      op.body[i]? = some (Store.counter_ready false) ∧
      (∃ s, op.body[j]? = some s ∧ s.writes_counter = true) ∧
      op.body[k]? = some (Store.counter_ready true) ∧
      (∀ (m : Nat) (s : Store), op.body[m]? = some s → s.writes_counter = true → m = j)) ∧
    (∀ n, n < op.body.length → (state_after op n ci).counter ≠ ci.counter →
      (state_after op n ci).counter_ready = false) ∧
    (∀ n, n < op.body.length →
      (state_after op (n + 1) ci).counter ≠ (state_after op n ci).counter →
      (state_after op n ci).counter_ready = false) := by
  refine ⟨⟨0, 2, 4, by omega, by omega, ?_, ?_, ?_, ?_⟩, ?_, ?_⟩
  · cases op <;> rfl
  · cases op
    · exact ⟨_, rfl, rfl⟩
    · exact ⟨_, rfl, rfl⟩
    · exact ⟨_, rfl, rfl⟩
  · cases op <;> rfl
  · intro m s hm hw
    have hlen : op.body.length = 5 := by cases op <;> rfl
    have hlt : m < 5 := by
      by_contra hge
      have : op.body[m]? = none := List.getElem?_eq_none (by omega)
      rw [this] at hm
      cases hm
    interval_cases m
    · cases op <;>
        (simp [BogoOp.body, stress_bogo_add_body, stress_bogo_inc_body,
          stress_bogo_set_body] at hm; subst hm; simp [Store.writes_counter] at hw)
    · cases op <;>
        (simp [BogoOp.body, stress_bogo_add_body, stress_bogo_inc_body,
          stress_bogo_set_body] at hm; subst hm; simp [Store.writes_counter] at hw)
    · rfl
    · cases op <;>
        (simp [BogoOp.body, stress_bogo_add_body, stress_bogo_inc_body,
          stress_bogo_set_body] at hm; subst hm; simp [Store.writes_counter] at hw)
    · cases op <;>
        (simp [BogoOp.body, stress_bogo_add_body, stress_bogo_inc_body,
          stress_bogo_set_body] at hm; subst hm; simp [Store.writes_counter] at hw)
  · intro n hn hne
    have hlen : op.body.length = 5 := by cases op <;> rfl
    rw [hlen] at hn
    interval_cases n
    · exact absurd rfl hne
    · exact absurd (by cases op <;> rfl) hne
    · exact absurd (by cases op <;> rfl) hne
    · cases op <;> rfl
    · cases op <;> rfl
  · intro n hn hne
    have hlen : op.body.length = 5 := by cases op <;> rfl
    rw [hlen] at hn
    interval_cases n
    · exact absurd (by cases op <;> rfl) hne
    · exact absurd (by cases op <;> rfl) hne
    · cases op <;> rfl
    · exact absurd (by cases op <;> rfl) hne
    · exact absurd (by cases op <;> rfl) hne

/-- Instance of C4: during `stress_bogo_set(args, 9)` from counter 3 with
`counter_ready` true, after three statements the counter has changed and
`counter_ready` is false. -/
theorem bogo_store_order_witness :
    3 < (BogoOp.set 9).body.length ∧
    (state_after (BogoOp.set 9) 3 ⟨3, true, true, false⟩).counter ≠ 3 ∧
    (state_after (BogoOp.set 9) 3 ⟨3, true, true, false⟩).counter_ready = false :=
  ⟨by decide, by decide,
   (bogo_store_order (BogoOp.set 9) ⟨3, true, true, false⟩).2.1 3 (by decide) (by decide)⟩

/-! ## Theorems: locked updates, forced kill, checksum record -/

/-- C6: when `stress_lock_acquire` fails (negative return value),
`stress_bogo_add_lock` leaves the whole counter record (indeed all of `args`)
unchanged and does not call `stress_lock_release`. -/
theorem stress_bogo_add_lock_acquire_fails (args : stress_args_t)
    (acquire_ret val : Int) (h : acquire_ret < 0) :
    (stress_bogo_add_lock args acquire_ret val).1.ci = args.ci ∧
    (stress_bogo_add_lock args acquire_ret val).1 = args ∧
    LockCall.release ∉ (stress_bogo_add_lock args acquire_ret val).2 := by
  simp [stress_bogo_add_lock, h]

/-- Instance of C6: acquire returns -1, `val = 4`. -/
theorem stress_bogo_add_lock_acquire_fails_witness :
    (-1 : Int) < 0 ∧
    (stress_bogo_add_lock ⟨⟨3, true, true, false⟩, 0, 0⟩ (-1) 4).1.ci =
      ⟨3, true, true, false⟩ ∧
    LockCall.release ∉ (stress_bogo_add_lock ⟨⟨3, true, true, false⟩, 0, 0⟩ (-1) 4).2 :=
  have h := stress_bogo_add_lock_acquire_fails ⟨⟨3, true, true, false⟩, 0, 0⟩ (-1) 4
    (by decide)
  ⟨by decide, h.1, h.2.2⟩

/-- C7: when `stress_lock_acquire` fails (negative return value),
`stress_bogo_inc_lock` leaves the whole counter record unchanged, whatever
`inc` is, and returns `stress_continue(args)` of that unchanged state; it does
not call `stress_lock_release`. -/
theorem stress_bogo_inc_lock_acquire_fails (g : Globals) (args : stress_args_t)
    (acquire_ret : Int) (inc : Bool) (h : acquire_ret < 0) :
    (stress_bogo_inc_lock g args acquire_ret inc).2.1.ci = args.ci ∧
    (stress_bogo_inc_lock g args acquire_ret inc).2.1 = args ∧
    (stress_bogo_inc_lock g args acquire_ret inc).1 =
      stress_continue g (stress_bogo_inc_lock g args acquire_ret inc).2.1 ∧
    (stress_bogo_inc_lock g args acquire_ret inc).1 = stress_continue g args ∧
    LockCall.release ∉ (stress_bogo_inc_lock g args acquire_ret inc).2.2 := by
  simp [stress_bogo_inc_lock, h]

/-- Instance of C7: acquire returns -1, `inc` true, flag set, `max_ops = 10`,
counter 3: the counter stays 3 and the call returns true. -/
theorem stress_bogo_inc_lock_acquire_fails_witness :
    (-1 : Int) < 0 ∧
    (stress_bogo_inc_lock ⟨0, 0, true⟩ ⟨⟨3, true, true, false⟩, 10, 0⟩ (-1) true).2.1.ci =
      ⟨3, true, true, false⟩ ∧
    (stress_bogo_inc_lock ⟨0, 0, true⟩ ⟨⟨3, true, true, false⟩, 10, 0⟩ (-1) true).1 =
      stress_continue ⟨0, 0, true⟩ ⟨⟨3, true, true, false⟩, 10, 0⟩ :=
  have h := stress_bogo_inc_lock_acquire_fails ⟨0, 0, true⟩
    ⟨⟨3, true, true, false⟩, 10, 0⟩ (-1) true (by decide)
  ⟨by decide, h.1, h.2.2.2.1⟩

/-- C8: `stress_force_killed_bogo` leaves `force_killed` true, leaves
`counter`, `counter_ready` and `run_ok` (and the other fields of `args`)
unchanged, and applying it twice gives the same state as applying it once. -/
theorem stress_force_killed_bogo_frame (args : stress_args_t) :
    (stress_force_killed_bogo args).ci.force_killed = true ∧
    (stress_force_killed_bogo args).ci.counter = args.ci.counter ∧
    (stress_force_killed_bogo args).ci.counter_ready = args.ci.counter_ready ∧
    (stress_force_killed_bogo args).ci.run_ok = args.ci.run_ok ∧
    (stress_force_killed_bogo args).max_ops = args.max_ops ∧
    (stress_force_killed_bogo args).instance_no = args.instance_no ∧
    stress_force_killed_bogo (stress_force_killed_bogo args) =
      stress_force_killed_bogo args :=
  ⟨rfl, rfl, rfl, rfl, rfl, rfl, rfl⟩

/-- C11 (the code at the declaration): the port map has 65536 elements of 8
bits, so its capacity is 524288 bits, eight times the number of port numbers
and not 65536; the bit of the last port number, 65535, lies in element 8191. -/
theorem net_port_map_capacity :
    net_port_map_allocated_len = 65536 ∧
    STRESS_NBITS sizeof_uint8_t = 8 ∧
    net_port_map_capacity_bits = 524288 ∧
    net_port_map_capacity_bits ≠ 65536 ∧
    65535 / STRESS_NBITS sizeof_uint8_t = 8191 := by
  decide

/-- C15: the fifteen class constants are pairwise distinct, each is a single
bit below bit 32, and `stress_udp_flood_info.class & c` is nonzero exactly for
`CLASS_NETWORK` and `CLASS_OS`. -/
theorem stress_classes_single_bits :
    stress_classes.length = 15 ∧
    stress_classes.Nodup ∧
    (∀ c ∈ stress_classes, ∃ k, k < 32 ∧ c = 2 ^ k) ∧
    (∀ c ∈ stress_classes,
      (stress_udp_flood_info_class &&& c ≠ 0 ↔ c = CLASS_NETWORK ∨ c = CLASS_OS)) := by
  refine ⟨rfl, by decide, ?_, ?_⟩
  · intro c hc
    simp only [stress_classes, List.mem_cons, List.mem_singleton, List.mem_nil_iff,
      or_false] at hc
    rcases hc with h | h | h | h | h | h | h | h | h | h | h | h | h | h | h
    · exact ⟨0, by omega, h⟩
    · exact ⟨1, by omega, h⟩
    · exact ⟨2, by omega, h⟩
    · exact ⟨3, by omega, h⟩
    · exact ⟨4, by omega, h⟩
    · exact ⟨5, by omega, h⟩
    · exact ⟨6, by omega, h⟩
    · exact ⟨7, by omega, h⟩
    · exact ⟨8, by omega, h⟩
    · exact ⟨9, by omega, h⟩
    · exact ⟨10, by omega, h⟩
    · exact ⟨11, by omega, h⟩
    · exact ⟨12, by omega, h⟩
    · exact ⟨13, by omega, h⟩
    · exact ⟨14, by omega, h⟩
  · decide

/-- Instance of C15 at `CLASS_NETWORK` and at `CLASS_CPU`. -/
theorem stress_classes_single_bits_witness :
    stress_udp_flood_info_class &&& CLASS_NETWORK ≠ 0 ∧
    ¬ (stress_udp_flood_info_class &&& CLASS_CPU ≠ 0) :=
  ⟨(stress_classes_single_bits.2.2.2 CLASS_NETWORK (by decide)).mpr (Or.inl rfl),
   fun h => by
    have h1 := (stress_classes_single_bits.2.2.2 CLASS_CPU (by decide)).mp h
    revert h1
    decide⟩

/-- C17 (the code at a failing input): `stress_align_stack` clears the low
four bits, so for `stack_top = 0x7ffc0000001f` it returns `0x7ffc00000010`, at
distance 15, although the multiple of sixteen `0x7ffc00000020` is at
distance 1. -/
theorem stress_align_stack_rounds_down :
    stress_align_stack 0x7ffc0000001f = 0x7ffc00000010 ∧
    16 ∣ 0x7ffc00000020 ∧
    (0x7ffc00000020 : Nat) - 0x7ffc0000001f <
      0x7ffc0000001f - stress_align_stack 0x7ffc0000001f := by
  decide

/-! ## Theorems: bit arrays -/

theorem byte_set_get (x k : Nat) (hk : k < 8) :
    ((x ||| 1 <<< k) % 2 ^ 8) &&& 1 <<< k = 1 <<< k := by
  apply Nat.eq_of_testBit_eq
  intro i
  simp only [Nat.testBit_and, Nat.testBit_mod_two_pow, Nat.testBit_or, Nat.one_shiftLeft,
    Nat.testBit_two_pow]
  by_cases h : k = i
  · subst h; simp [hk]
  · simp [h]

theorem byte_clr_get (x k : Nat) (hk : k < 8) :
    ((x &&& not32 (1 <<< k)) % 2 ^ 8) &&& 1 <<< k = 0 := by
  apply Nat.eq_of_testBit_eq
  intro i
  have hlt : 2 ^ k < 2 ^ 32 := Nat.pow_lt_pow_right (by norm_num) (by omega)
  simp only [not32, Nat.testBit_and, Nat.testBit_mod_two_pow, Nat.one_shiftLeft,
    Nat.testBit_two_pow, Nat.testBit_two_pow_sub_succ hlt, Nat.zero_testBit]
  by_cases h : k = i
  · subst h; simp
  · simp [h]

theorem byte_set_other (x k l : Nat) (hl : l < 8) (hkl : k ≠ l) :
    ((x ||| 1 <<< k) % 2 ^ 8) &&& 1 <<< l = x &&& 1 <<< l := by
  apply Nat.eq_of_testBit_eq
  intro i
  simp only [Nat.testBit_and, Nat.testBit_mod_two_pow, Nat.testBit_or, Nat.one_shiftLeft,
    Nat.testBit_two_pow]
  by_cases h : l = i
  · subst h
    have : ¬ k = l := hkl
    simp [hl, this]
  · simp [h]

theorem byte_clr_other (x k l : Nat) (hk : k < 8) (hl : l < 8) (hkl : k ≠ l) :
    ((x &&& not32 (1 <<< k)) % 2 ^ 8) &&& 1 <<< l = x &&& 1 <<< l := by
  apply Nat.eq_of_testBit_eq
  intro i
  have hlt : 2 ^ k < 2 ^ 32 := Nat.pow_lt_pow_right (by norm_num) (by omega)
  simp only [not32, Nat.testBit_and, Nat.testBit_mod_two_pow, Nat.one_shiftLeft,
    Nat.testBit_two_pow, Nat.testBit_two_pow_sub_succ hlt]
  by_cases h : l = i
  · subst h
    have : ¬ k = l := hkl
    have h32 : l < 32 := by omega
    simp [hl, this, h32]
  · simp [h]

theorem byte_set_clr (x k : Nat) (hx : x < 2 ^ 8) (hk : k < 8)
    (hclear : x &&& 1 <<< k = 0) :
    (((x ||| 1 <<< k) % 2 ^ 8) &&& not32 (1 <<< k)) % 2 ^ 8 = x := by
  apply Nat.eq_of_testBit_eq
  intro i
  have hlt : 2 ^ k < 2 ^ 32 := Nat.pow_lt_pow_right (by norm_num) (by omega)
  have hbit : x.testBit k = false := by
    have := congrArg (fun n => Nat.testBit n k) hclear
    simpa [Nat.testBit_and, Nat.one_shiftLeft, Nat.testBit_two_pow] using this
  simp only [not32, Nat.testBit_and, Nat.testBit_mod_two_pow, Nat.testBit_or,
    Nat.one_shiftLeft, Nat.testBit_two_pow, Nat.testBit_two_pow_sub_succ hlt]
  by_cases h8 : i < 8
  · have h32 : i < 32 := by omega
    by_cases h : k = i
    · subst h; simp [hbit]
    · simp [h, h8, h32]
  · have : x.testBit i = false := by
      apply Nat.testBit_lt_two_pow
      calc x < 2 ^ 8 := hx
        _ ≤ 2 ^ i := Nat.pow_le_pow_right (by norm_num) (by omega)
    simp [h8, this]

theorem stress_bit_mask_eq (i : Nat) : stress_bit_mask i = 1 <<< (i % 8) := by
  have h := Nat.and_pow_two_sub_one_eq_mod i 3
  have h7 : STRESS_NBITS sizeof_uint8_t - 1 = 2 ^ 3 - 1 := by decide
  unfold stress_bit_mask
  rw [h7, h]

theorem STRESS_NBITS_uint8 : STRESS_NBITS sizeof_uint8_t = 8 := rfl

theorem getD_set_same (a : List Nat) (n v : Nat) (h : n < a.length) :
    (a.set n v).getD n 0 = v := by
  simp [List.getElem?_set, h]

theorem getD_set_other (a : List Nat) (n m v : Nat) (h : n ≠ m) :
    (a.set n v).getD m 0 = a.getD m 0 := by
  simp [List.getElem?_set_ne h]

theorem set_getD_self (a : List Nat) (n : Nat) : a.set n (a.getD n 0) = a := by
  apply List.ext_getElem?
  intro m
  by_cases h : n = m
  · subst h
    by_cases hn : n < a.length
    · simp [List.getElem?_set, hn]
    · simp [List.getElem?_set, hn]
      omega
  · simp [List.getElem?_set_ne h]

/-- C12: for a `uint8_t` bit array and an in-range bit index `i`, after
`STRESS_SETBIT(a, i)` and then `STRESS_CLRBIT(a, i)` the test
`STRESS_GETBIT(a, i)` is zero; and if all elements are bytes and bit `i` was
clear before, the array is again the original array. -/
theorem setbit_clrbit_getbit (a : List Nat) (i : Nat)
    (hi : i < a.length * STRESS_NBITS sizeof_uint8_t) :
    STRESS_GETBIT (STRESS_CLRBIT (STRESS_SETBIT a i) i) i = 0 ∧
    ((∀ x ∈ a, x < 2 ^ 8) → STRESS_GETBIT a i = 0 →
      STRESS_CLRBIT (STRESS_SETBIT a i) i = a) := by
  rw [STRESS_NBITS_uint8] at hi
  have hidx : i / 8 < a.length := by
    rw [Nat.div_lt_iff_lt_mul (by norm_num)]; exact hi
  have hk : i % 8 < 8 := Nat.mod_lt _ (by norm_num)
  constructor
  · unfold STRESS_GETBIT STRESS_CLRBIT
    rw [STRESS_NBITS_uint8, stress_bit_mask_eq]
    rw [getD_set_same _ _ _ (by unfold STRESS_SETBIT; simpa using hidx)]
    exact byte_clr_get _ _ hk
  · intro hbytes hclear
    unfold STRESS_GETBIT at hclear
    unfold STRESS_CLRBIT STRESS_SETBIT
    rw [STRESS_NBITS_uint8, stress_bit_mask_eq] at *
    rw [getD_set_same _ _ _ hidx, List.set_set]
    have hx : a.getD (i / 8) 0 < 2 ^ 8 := by
      rw [List.getD_eq_getElem?_getD, List.getElem?_eq_getElem hidx]
      exact hbytes _ (List.getElem_mem _)
    rw [byte_set_clr _ _ hx hk hclear]
    exact set_getD_self a (i / 8)

/-- Instance of C12: the two-byte array `[0, 5]` and bit 9 (clear before). -/
theorem setbit_clrbit_getbit_witness :
    9 < [0, 5].length * STRESS_NBITS sizeof_uint8_t ∧
    STRESS_GETBIT (STRESS_CLRBIT (STRESS_SETBIT [0, 5] 9) 9) 9 = 0 ∧
    STRESS_CLRBIT (STRESS_SETBIT [0, 5] 9) 9 = [0, 5] :=
  have h := setbit_clrbit_getbit [0, 5] 9 (by decide)
  ⟨by decide, h.1, h.2 (by decide) (by decide)⟩

/-- C13: for a `uint8_t` bit array and in-range bit indices `i ≠ j`, after
`STRESS_SETBIT(a, i)` the test of bit `i` is nonzero and the test of bit `j`
gives the value it gave before (so it is zero exactly when it was zero); after
`STRESS_CLRBIT(a, i)` the test of bit `i` is zero and the test of bit `j`
gives the value it gave before. -/
theorem setbit_clrbit_other_bits (a : List Nat) (i j : Nat)
    (hi : i < a.length * STRESS_NBITS sizeof_uint8_t)
    (_hj : j < a.length * STRESS_NBITS sizeof_uint8_t) (hij : i ≠ j) :
    STRESS_GETBIT (STRESS_SETBIT a i) i ≠ 0 ∧
    STRESS_GETBIT (STRESS_SETBIT a i) j = STRESS_GETBIT a j ∧
    (STRESS_GETBIT (STRESS_SETBIT a i) j = 0 ↔ STRESS_GETBIT a j = 0) ∧
    STRESS_GETBIT (STRESS_CLRBIT a i) i = 0 ∧
    STRESS_GETBIT (STRESS_CLRBIT a i) j = STRESS_GETBIT a j ∧
    (STRESS_GETBIT (STRESS_CLRBIT a i) j = 0 ↔ STRESS_GETBIT a j = 0) := by
  rw [STRESS_NBITS_uint8] at hi
  have hidx : i / 8 < a.length := by
    rw [Nat.div_lt_iff_lt_mul (by norm_num)]; exact hi
  have hk : i % 8 < 8 := Nat.mod_lt _ (by norm_num)
  have hl : j % 8 < 8 := Nat.mod_lt _ (by norm_num)
  have hset : STRESS_GETBIT (STRESS_SETBIT a i) j = STRESS_GETBIT a j := by
    unfold STRESS_GETBIT STRESS_SETBIT
    rw [STRESS_NBITS_uint8, stress_bit_mask_eq, stress_bit_mask_eq]
    by_cases hsame : i / 8 = j / 8
    · have hne : i % 8 ≠ j % 8 := by omega
      rw [← hsame, getD_set_same _ _ _ hidx]
      exact byte_set_other _ _ _ hl hne
    · rw [getD_set_other _ _ _ _ hsame]
  have hclr : STRESS_GETBIT (STRESS_CLRBIT a i) j = STRESS_GETBIT a j := by
    unfold STRESS_GETBIT STRESS_CLRBIT
    rw [STRESS_NBITS_uint8, stress_bit_mask_eq, stress_bit_mask_eq]
    by_cases hsame : i / 8 = j / 8
    · have hne : i % 8 ≠ j % 8 := by omega
      rw [← hsame, getD_set_same _ _ _ hidx]
      exact byte_clr_other _ _ _ hk hl hne
    · rw [getD_set_other _ _ _ _ hsame]
  refine ⟨?_, hset, by rw [hset], ?_, hclr, by rw [hclr]⟩
  · unfold STRESS_GETBIT STRESS_SETBIT
    rw [STRESS_NBITS_uint8, stress_bit_mask_eq, getD_set_same _ _ _ hidx,
      byte_set_get _ _ hk, Nat.one_shiftLeft]
    exact Nat.pos_iff_ne_zero.mp (Nat.pow_pos (by norm_num))
  · unfold STRESS_GETBIT STRESS_CLRBIT
    rw [STRESS_NBITS_uint8, stress_bit_mask_eq, getD_set_same _ _ _ hidx]
    exact byte_clr_get _ _ hk

/-- Instance of C13: the array `[0, 5]`, `i = 9` and `j = 10` in the same
byte, bit 10 being set before. -/
theorem setbit_clrbit_other_bits_witness :
    9 < [0, 5].length * STRESS_NBITS sizeof_uint8_t ∧
    10 < [0, 5].length * STRESS_NBITS sizeof_uint8_t ∧ (9 : Nat) ≠ 10 ∧
    STRESS_GETBIT (STRESS_SETBIT [0, 5] 9) 9 ≠ 0 ∧
    STRESS_GETBIT (STRESS_SETBIT [0, 5] 9) 10 = STRESS_GETBIT [0, 5] 10 ∧
    STRESS_GETBIT (STRESS_CLRBIT [0, 5] 9) 10 = STRESS_GETBIT [0, 5] 10 :=
  have h := setbit_clrbit_other_bits [0, 5] 9 10 (by decide) (by decide) (by decide)
  ⟨by decide, by decide, by decide, h.1, h.2.1, h.2.2.2.2.1⟩

theorem stress_align_stack_eq (x : Nat) (hx : x < 2 ^ 64) :
    stress_align_stack x = x - x % 16 := by
  have h16 : x - x % 16 = (x >>> 4) <<< 4 := by
    rw [Nat.shiftRight_eq_div_pow, Nat.shiftLeft_eq]
    have := Nat.div_add_mod x 16
    norm_num
    omega
  rw [h16]
  apply Nat.eq_of_testBit_eq
  intro i
  unfold stress_align_stack not_uintptr
  rw [Nat.testBit_and, Nat.testBit_two_pow_sub_succ (by norm_num), Nat.testBit_shiftLeft,
    Nat.testBit_shiftRight]
  have h15 : Nat.testBit 15 i = decide (i < 4) := by
    have : (15 : Nat) = 2 ^ 4 - 1 := by norm_num
    rw [this, Nat.testBit_two_pow_sub_one]
  rw [h15]
  by_cases h4 : i < 4
  · simp [h4]
  · have h4' : 4 ≤ i := by omega
    by_cases h64 : i < 64
    · simp [h4, h64, h4']
    · have : x.testBit i = false := by
        apply Nat.testBit_lt_two_pow
        calc x < 2 ^ 64 := hx
          _ ≤ 2 ^ i := Nat.pow_le_pow_right (by norm_num) (by omega)
      simp [h4, h64, h4', this]

/-! ## Theorems: locked updates with the lock acquired -/

theorem exec_inc_body (ci : stress_counter_info_t) :
    exec_stores stress_bogo_inc_body ci =
      { ci with counter := (ci.counter + 1) % UINT64_MOD, counter_ready := true } := rfl

theorem exec_add_body (ci : stress_counter_info_t) (n : Nat) :
    exec_stores (stress_bogo_add_body n) ci =
      { ci with counter := (ci.counter + n) % UINT64_MOD, counter_ready := true } := rfl

/-- C16: when `stress_lock_acquire` succeeds, `stress_bogo_inc_lock` returns
`stress_continue(args)` of the state before the call; the counter becomes
`counter + 1` modulo 2^64 (with `counter_ready` true and the other fields
kept) exactly when `inc` is true and the returned value is true, otherwise the
counter record is unchanged; the lock is released exactly once, after the
acquire. -/
theorem stress_bogo_inc_lock_acquired (g : Globals) (args : stress_args_t)
    (acquire_ret : Int) (inc : Bool) (h : 0 ≤ acquire_ret) :
    (stress_bogo_inc_lock g args acquire_ret inc).1 = stress_continue g args ∧
    (inc = true ∧ stress_continue g args = true →
      (stress_bogo_inc_lock g args acquire_ret inc).2.1.ci =
        { args.ci with counter := (args.ci.counter + 1) % 2 ^ 64, counter_ready := true }) ∧
    (¬ (inc = true ∧ stress_continue g args = true) →
      (stress_bogo_inc_lock g args acquire_ret inc).2.1.ci = args.ci) ∧
    ((stress_bogo_inc_lock g args acquire_ret inc).2.1.ci.counter =
        (args.ci.counter + 1) % 2 ^ 64 ↔
      inc = true ∧ (stress_bogo_inc_lock g args acquire_ret inc).1 = true) ∧
    (stress_bogo_inc_lock g args acquire_ret inc).2.2 =
      [LockCall.acquire, LockCall.release] ∧
    (stress_bogo_inc_lock g args acquire_ret inc).2.2.count LockCall.release = 1 := by
  have hneg : ¬ acquire_ret < 0 := by omega
  have hne : args.ci.counter ≠ (args.ci.counter + 1) % 2 ^ 64 := by omega
  by_cases hc : inc = true ∧ stress_continue g args = true
  · obtain ⟨hi, hr⟩ := hc
    simp [stress_bogo_inc_lock, hneg, hi, hr, stress_bogo_inc, exec_inc_body, UINT64_MOD]
  · have hb : (inc && stress_continue g args) = false := by
      cases inc <;> cases hs : stress_continue g args <;> simp_all
    have hr : stress_bogo_inc_lock g args acquire_ret inc =
        (stress_continue g args, args, [LockCall.acquire, LockCall.release]) := by
      simp [stress_bogo_inc_lock, hneg, hb]
    rw [hr]
    refine ⟨rfl, fun h1 => absurd h1 hc, fun _ => rfl, ?_, rfl, rfl⟩
    constructor
    · intro h1; exact absurd h1 hne
    · intro h1; exact absurd h1 hc

/-- Instance of C16: acquire returns 0, `inc` true, flag set, `max_ops = 10`:
the call returns true and the counter goes from 3 to 4. -/
theorem stress_bogo_inc_lock_acquired_witness :
    (0 : Int) ≤ 0 ∧
    (stress_bogo_inc_lock ⟨0, 0, true⟩ ⟨⟨3, true, true, false⟩, 10, 0⟩ 0 true).1 = true ∧
    (stress_bogo_inc_lock ⟨0, 0, true⟩ ⟨⟨3, true, true, false⟩, 10, 0⟩ 0 true).2.1.ci =
      ⟨4, true, true, false⟩ ∧
    (stress_bogo_inc_lock ⟨0, 0, true⟩ ⟨⟨3, true, true, false⟩, 10, 0⟩ 0
      true).2.2.count LockCall.release = 1 :=
  have h := stress_bogo_inc_lock_acquired ⟨0, 0, true⟩ ⟨⟨3, true, true, false⟩, 10, 0⟩ 0
    true (by decide)
  ⟨by decide, h.1.trans (by decide), (h.2.1 ⟨rfl, by decide⟩).trans (by decide),
    h.2.2.2.2.2⟩

/-- C20: when `stress_lock_acquire` succeeds, `stress_bogo_add_lock` leaves the
counter at `(counter + val)` modulo 2^64 with `val` a signed integer (for a
negative `val` of magnitude at most the counter, a `uint64_t`, that is
`counter - |val|`), sets `counter_ready`, keeps `run_ok` and `force_killed`,
and releases the lock exactly once, after the acquire. -/
theorem stress_bogo_add_lock_acquired (args : stress_args_t) (acquire_ret val : Int)
    (h : 0 ≤ acquire_ret) :
    (((stress_bogo_add_lock args acquire_ret val).1.ci.counter : Nat) : Int) =
      ((args.ci.counter : Int) + val) % 2 ^ 64 ∧
    (val < 0 → -val ≤ (args.ci.counter : Int) → args.ci.counter < 2 ^ 64 →
      (((stress_bogo_add_lock args acquire_ret val).1.ci.counter : Nat) : Int) =
        (args.ci.counter : Int) - |val|) ∧
    (stress_bogo_add_lock args acquire_ret val).1.ci.counter_ready = true ∧
    (stress_bogo_add_lock args acquire_ret val).1.ci.run_ok = args.ci.run_ok ∧
    (stress_bogo_add_lock args acquire_ret val).1.ci.force_killed = args.ci.force_killed ∧
    (stress_bogo_add_lock args acquire_ret val).2 = [LockCall.acquire, LockCall.release] ∧
    (stress_bogo_add_lock args acquire_ret val).2.count LockCall.release = 1 := by
  have hneg : ¬ acquire_ret < 0 := by omega
  have hcnt : (((stress_bogo_add_lock args acquire_ret val).1.ci.counter : Nat) : Int) =
      ((args.ci.counter : Int) + val) % 2 ^ 64 := by
    simp only [stress_bogo_add_lock, hneg, if_false, stress_bogo_add, exec_add_body,
      int64_to_uint64, UINT64_MOD]
    push_cast
    rw [Int.toNat_of_nonneg (Int.emod_nonneg _ (by norm_num))]
    rw [Int.add_emod, Int.emod_emod_of_dvd _ (dvd_refl _), ← Int.add_emod]
  refine ⟨hcnt, ?_, ?_, ?_, ?_, ?_, ?_⟩
  · intro hv hle hlt
    rw [hcnt, abs_of_neg hv]
    have h0 : 0 ≤ (args.ci.counter : Int) + val := by omega
    have h1 : (args.ci.counter : Int) + val < 2 ^ 64 := by
      have : ((args.ci.counter : Nat) : Int) < 2 ^ 64 := by exact_mod_cast hlt
      omega
    rw [Int.emod_eq_of_lt h0 h1]
    omega
  all_goals simp [stress_bogo_add_lock, hneg, stress_bogo_add, exec_add_body]

/-- Instance of C20: acquire returns 0, counter 7, `val = -2`. -/
theorem stress_bogo_add_lock_acquired_witness :
    (0 : Int) ≤ 0 ∧
    (((stress_bogo_add_lock ⟨⟨7, true, true, false⟩, 0, 0⟩ 0 (-2)).1.ci.counter : Nat) : Int) =
      (((7 : Nat) : Int) + (-2)) % 2 ^ 64 ∧
    (stress_bogo_add_lock ⟨⟨7, true, true, false⟩, 0, 0⟩ 0 (-2)).2.count LockCall.release = 1 :=
  have h := stress_bogo_add_lock_acquired ⟨⟨7, true, true, false⟩, 0, 0⟩ 0 (-2) (by decide)
  ⟨by decide, h.1, h.2.2.2.2.2.2⟩

/-! ## Theorems: the UDP flood stressor -/

/-- C14: `stress_udp_flood` returns at once when `socket()` fails, with
`EXIT_NOT_IMPLEMENTED` (4) for errno `EPROTONOSUPPORT` and `EXIT_FAILURE` for
any other errno; otherwise it returns exactly when its loop leaves, and then
with `EXIT_SUCCESS`, whatever `stress_set_sockaddr_if` and the `sendto` calls
return.  Every returned status is in the exit-status vocabulary, whose codes
are pairwise distinct. -/
theorem stress_udp_flood_exit_status {D : Type} (F : DoubleSumOps D) (MB : Nat)
    (EPROTONOSUPPORT : Int) (env : udp_flood_env D) (args : stress_args_t) :
    (env.socket_ret < 0 →
      (stress_udp_flood F MB EPROTONOSUPPORT env args).isSome = true) ∧
    (¬ env.socket_ret < 0 →
      (stress_udp_flood F MB EPROTONOSUPPORT env args).isSome =
        (udp_flood_loop (STRESS_MINIMUM ((23 + args.instance_no) % 2 ^ 32) MAX_UDP_SIZE) F
          env.iterations
          { args := args, port := 1024, j := 0, sz := 1, bytes := F.zero }).isSome) ∧
    (∀ r, stress_udp_flood F MB EPROTONOSUPPORT env args = some r →
      r.rc ∈ exit_status_vocabulary ∧
      (r.rc = EXIT_NOT_IMPLEMENTED ↔
        env.socket_ret < 0 ∧ env.socket_errno = EPROTONOSUPPORT) ∧
      (r.rc = EXIT_FAILURE ↔
        env.socket_ret < 0 ∧ env.socket_errno ≠ EPROTONOSUPPORT) ∧
      (r.rc = EXIT_SUCCESS ↔ ¬ env.socket_ret < 0)) ∧
    EXIT_NOT_IMPLEMENTED = 4 ∧
    exit_status_vocabulary.Nodup := by
  refine ⟨?_, ?_, ?_, rfl, by decide⟩
  · intro h
    unfold stress_udp_flood
    by_cases he : env.socket_errno = EPROTONOSUPPORT <;> simp [h, he]
  · intro h
    unfold stress_udp_flood
    simp only [h, if_false]
    cases udp_flood_loop (STRESS_MINIMUM ((23 + args.instance_no) % 2 ^ 32) MAX_UDP_SIZE) F
      env.iterations { args := args, port := 1024, j := 0, sz := 1, bytes := F.zero } <;> rfl
  · intro r hr
    unfold stress_udp_flood at hr
    by_cases h : env.socket_ret < 0
    · by_cases he : env.socket_errno = EPROTONOSUPPORT
      · simp only [h, he, if_true, Option.some.injEq] at hr
        subst hr
        simp [h, he, exit_status_vocabulary, EXIT_NOT_IMPLEMENTED, EXIT_FAILURE, EXIT_SUCCESS]
      · simp only [h, he, if_true, if_false, Option.some.injEq] at hr
        subst hr
        simp [h, he, exit_status_vocabulary, EXIT_NOT_IMPLEMENTED, EXIT_FAILURE, EXIT_SUCCESS]
    · simp only [h, if_false] at hr
      cases hl : udp_flood_loop (STRESS_MINIMUM ((23 + args.instance_no) % 2 ^ 32)
          MAX_UDP_SIZE) F env.iterations
          { args := args, port := 1024, j := 0, sz := 1, bytes := F.zero } with
      | none => rw [hl] at hr; cases hr
      | some p =>
        rw [hl] at hr
        simp only [Option.some.injEq] at hr
        subst hr
        simp [h, exit_status_vocabulary, EXIT_NOT_IMPLEMENTED, EXIT_FAILURE, EXIT_SUCCESS]

/-- Instance of C14: `socket()` succeeds, `stress_set_sockaddr_if` fails, the
one `sendto` fails and the flag is then found cleared: the status is
`EXIT_SUCCESS`. -/
theorem stress_udp_flood_exit_status_witness :
    ∃ r, stress_udp_flood rat_sum_ops (2 ^ 20) 93
        ⟨3, 0, -1, 0, 2, [⟨1025, -1, ⟨0, 0, false⟩, 7, 1031, -1, ⟨0, 0, false⟩⟩]⟩
        ⟨⟨0, true, true, false⟩, 0, 0⟩ = some r ∧ r.rc = EXIT_SUCCESS :=
  have hsome : stress_udp_flood rat_sum_ops (2 ^ 20) 93
      ⟨3, 0, -1, 0, 2, [⟨1025, -1, ⟨0, 0, false⟩, 7, 1031, -1, ⟨0, 0, false⟩⟩]⟩
      ⟨⟨0, true, true, false⟩, 0, 0⟩ ≠ none := by
    simp [stress_udp_flood, udp_flood_loop, udp_flood_iteration, stress_continue]
  match hr : stress_udp_flood rat_sum_ops (2 ^ 20) 93
      ⟨3, 0, -1, 0, 2, [⟨1025, -1, ⟨0, 0, false⟩, 7, 1031, -1, ⟨0, 0, false⟩⟩]⟩
      ⟨⟨0, true, true, false⟩, 0, 0⟩ with
  | none => absurd hr hsome
  | some r => ⟨r, rfl, ((stress_udp_flood_exit_status rat_sum_ops (2 ^ 20) 93
      ⟨3, 0, -1, 0, 2, [⟨1025, -1, ⟨0, 0, false⟩, 7, 1031, -1, ⟨0, 0, false⟩⟩]⟩
      ⟨⟨0, true, true, false⟩, 0, 0⟩).2.2.1 r hr).2.2.2.mpr (by decide)⟩

theorem stress_continue_flag_true (g : Globals) (a : stress_args_t)
    (hg : g.g_stress_continue_flag = true) (hm : 1 ≤ a.max_ops) :
    stress_continue g a = decide (a.ci.counter < a.max_ops) := by
  have h0 : ¬ a.max_ops = 0 := by omega
  simp [stress_continue, hg, h0, stress_bogo_get]

theorem udp_flood_iteration_budget {D : Type} (sz_max : Nat) (F : DoubleSumOps D)
    (e : udp_iter_env) (s : udp_loop_state D)
    (hm1 : 1 ≤ s.args.max_ops) (hm2 : s.args.max_ops < 2 ^ 64)
    (hmid : e.g_mid.g_stress_continue_flag = true)
    (hend : e.g_end.g_stress_continue_flag = true)
    (hc : s.args.ci.counter < s.args.max_ops) :
    (udp_flood_iteration sz_max F e s).state.args.max_ops = s.args.max_ops ∧
    ((udp_flood_iteration sz_max F e s).leave = true →
      (udp_flood_iteration sz_max F e s).state.args.ci.counter = s.args.max_ops) ∧
    ((udp_flood_iteration sz_max F e s).leave = false →
      (udp_flood_iteration sz_max F e s).state.args.ci.counter < s.args.max_ops) := by
  have hinc : ∀ a : stress_args_t, (stress_bogo_inc a).max_ops = a.max_ops ∧
      (stress_bogo_inc a).ci.counter = (a.ci.counter + 1) % 2 ^ 64 := fun a => ⟨rfl, rfl⟩
  simp only [udp_flood_iteration, udp_next, udp_sent]
  split_ifs <;>
    simp_all [stress_continue_flag_true, hinc] <;> omega

theorem udp_flood_loop_cons_some {D : Type} (sz_max : Nat) (F : DoubleSumOps D)
    (e : udp_iter_env) (es : List udp_iter_env) (s final : udp_loop_state D)
    (calls : List (List udp_call))
    (h : udp_flood_loop sz_max F (e :: es) s = some (final, calls)) :
    ((udp_flood_iteration sz_max F e s).leave = true ∧
      final = (udp_flood_iteration sz_max F e s).state ∧
      calls = [(udp_flood_iteration sz_max F e s).calls]) ∨
    ((udp_flood_iteration sz_max F e s).leave = false ∧
      ∃ cs, udp_flood_loop sz_max F es (udp_flood_iteration sz_max F e s).state =
          some (final, cs) ∧
        calls = (udp_flood_iteration sz_max F e s).calls :: cs) := by
  unfold udp_flood_loop at h
  simp only [] at h
  cases hl : (udp_flood_iteration sz_max F e s).leave with
  | true =>
    left
    rw [hl] at h
    simp only [if_true, Option.some.injEq, Prod.mk.injEq] at h
    exact ⟨rfl, h.1.symm, h.2.symm⟩
  | false =>
    right
    rw [hl] at h
    simp only [Bool.false_eq_true, if_false] at h
    cases hrec : udp_flood_loop sz_max F es (udp_flood_iteration sz_max F e s).state with
    | none => rw [hrec] at h; cases h
    | some p =>
      obtain ⟨s1, cs⟩ := p
      rw [hrec] at h
      simp only [Option.some.injEq, Prod.mk.injEq] at h
      exact ⟨rfl, cs, by rw [h.1], h.2.symm⟩

theorem udp_flood_loop_budget {D : Type} (sz_max : Nat) (F : DoubleSumOps D)
    (envs : List udp_iter_env) :
    ∀ (s final : udp_loop_state D) (calls : List (List udp_call)),
      1 ≤ s.args.max_ops → s.args.max_ops < 2 ^ 64 →
      (∀ e ∈ envs, e.g_mid.g_stress_continue_flag = true ∧
        e.g_end.g_stress_continue_flag = true) →
      s.args.ci.counter < s.args.max_ops →
      udp_flood_loop sz_max F envs s = some (final, calls) →
      final.args.ci.counter = s.args.max_ops := by
  induction envs with
  | nil => intro s final calls _ _ _ _ h; simp [udp_flood_loop] at h
  | cons e es ih =>
    intro s final calls hm1 hm2 hflags hc h
    have hfe := hflags e (List.mem_cons_self _ _)
    have hb := udp_flood_iteration_budget sz_max F e s hm1 hm2 hfe.1 hfe.2 hc
    rcases udp_flood_loop_cons_some sz_max F e es s final calls h with
      ⟨hl, hf, _⟩ | ⟨hl, cs, hrec, _⟩
    · rw [hf]
      exact hb.2.1 hl
    · rw [← hb.1]
      apply ih _ final cs
      · rw [hb.1]; exact hm1
      · rw [hb.1]; exact hm2
      · intro e1 he1
        exact hflags e1 (List.mem_cons_of_mem _ he1)
      · rw [hb.1]; exact hb.2.2 hl
      · exact hrec

theorem udp_flood_loop_calls_forall {D : Type} (sz_max : Nat) (F : DoubleSumOps D)
    (P : List udp_call → Prop)
    (hP : ∀ (e : udp_iter_env) (s : udp_loop_state D),
      P (udp_flood_iteration sz_max F e s).calls)
    (envs : List udp_iter_env) :
    ∀ (s final : udp_loop_state D) (calls : List (List udp_call)),
      udp_flood_loop sz_max F envs s = some (final, calls) → ∀ it ∈ calls, P it := by
  induction envs with
  | nil => intro s final calls h; simp [udp_flood_loop] at h
  | cons e es ih =>
    intro s final calls h it hit
    rcases udp_flood_loop_cons_some sz_max F e es s final calls h with
      ⟨_, _, hcalls⟩ | ⟨_, cs, hrec, hcalls⟩
    · rw [hcalls, List.mem_singleton] at hit
      rw [hit]
      exact hP e s
    · rw [hcalls] at hit
      rcases List.mem_cons.mp hit with hit | hit
      · rw [hit]; exact hP e s
      · exact ih _ final cs hrec it hit

theorem udp_flood_iteration_check_follows {D : Type} (sz_max : Nat) (F : DoubleSumOps D)
    (e : udp_iter_env) (s : udp_loop_state D) :
    check_follows_each_inc (udp_flood_iteration sz_max F e s).calls = true := by
  simp only [udp_flood_iteration, udp_next, udp_sent]
  split_ifs <;> simp [check_follows_each_inc, check_before_next_inc]

theorem stress_udp_flood_some {D : Type} (F : DoubleSumOps D) (MB : Nat)
    (EPROTONOSUPPORT : Int) (env : udp_flood_env D) (args : stress_args_t)
    (r : udp_flood_result D) (hsock : ¬ env.socket_ret < 0)
    (h : stress_udp_flood F MB EPROTONOSUPPORT env args = some r) :
    ∃ final : udp_loop_state D,
      udp_flood_loop (STRESS_MINIMUM ((23 + args.instance_no) % 2 ^ 32) MAX_UDP_SIZE) F
        env.iterations { args := args, port := 1024, j := 0, sz := 1, bytes := F.zero } =
        some (final, r.calls) ∧
      r.args = final.args ∧ r.bytes = final.bytes ∧ r.rc = EXIT_SUCCESS := by
  unfold stress_udp_flood at h
  simp only [hsock, if_false] at h
  cases hl : udp_flood_loop (STRESS_MINIMUM ((23 + args.instance_no) % 2 ^ 32)
      MAX_UDP_SIZE) F env.iterations
      { args := args, port := 1024, j := 0, sz := 1, bytes := F.zero } with
  | none => rw [hl] at h; cases h
  | some p =>
    obtain ⟨s1, cs⟩ := p
    rw [hl] at h
    simp only [Option.some.injEq] at h
    subst h
    exact ⟨s1, rfl, rfl, rfl, rfl⟩

theorem udp_flood_iteration_two_sends {D : Type} (sz_max : Nat) (F : DoubleSumOps D)
    (e : udp_iter_env) (s : udp_loop_state D)
    (h1 : ¬ e.reserved_port < 0) (h2 : e.n > 0) (h3 : ¬ e.reserved_rand_port < 0)
    (h4 : e.n_rand > 0) (hmid : e.g_mid.g_stress_continue_flag = true)
    (hend : e.g_end.g_stress_continue_flag = true)
    (hm : s.args.ci.counter + 2 ≤ s.args.max_ops) (hm2 : s.args.max_ops < 2 ^ 64) :
    (udp_flood_iteration sz_max F e s).state.args.ci.counter = s.args.ci.counter + 2 ∧
    (udp_flood_iteration sz_max F e s).state.args.max_ops = s.args.max_ops ∧
    ((udp_flood_iteration sz_max F e s).leave = true ↔
      s.args.ci.counter + 2 = s.args.max_ops) := by
  have hinc : ∀ a : stress_args_t, (stress_bogo_inc a).max_ops = a.max_ops ∧
      (stress_bogo_inc a).ci.counter = (a.ci.counter + 1) % 2 ^ 64 := fun a => ⟨rfl, rfl⟩
  have hm1 : 1 ≤ s.args.max_ops := by omega
  have hk1 : stress_continue e.g_mid (stress_bogo_inc s.args) = true := by
    rw [stress_continue_flag_true _ _ hmid (by rw [(hinc _).1]; exact hm1)]
    rw [(hinc _).1, (hinc _).2]
    simp only [decide_eq_true_eq]
    omega
  simp only [udp_flood_iteration, udp_next, udp_sent, h1, h2, h3, h4, if_true, if_false, hk1,
    Bool.not_true, Bool.false_eq_true]
  rw [stress_continue_flag_true _ _ hend (by rw [(hinc _).1, (hinc _).1]; exact hm1)]
  simp only [(hinc _).1, (hinc _).2]
  refine ⟨by omega, trivial, ?_⟩
  simp only [Bool.not_eq_true', decide_eq_false_iff_not]
  omega

theorem udp_flood_loop_two_sends {D : Type} (sz_max : Nat) (F : DoubleSumOps D)
    (envs : List udp_iter_env) :
    ∀ (s : udp_loop_state D),
      (∀ e ∈ envs, ¬ e.reserved_port < 0 ∧ e.n > 0 ∧ ¬ e.reserved_rand_port < 0 ∧
        e.n_rand > 0 ∧ e.g_mid.g_stress_continue_flag = true ∧
        e.g_end.g_stress_continue_flag = true) →
      s.args.ci.counter + 2 * envs.length = s.args.max_ops → envs ≠ [] →
      s.args.max_ops < 2 ^ 64 →
      (udp_flood_loop sz_max F envs s).isSome = true := by
  induction envs with
  | nil => intro s _ _ hne; exact absurd rfl hne
  | cons e es ih =>
    intro s henv hlen _ hm2
    obtain ⟨h1, h2, h3, h4, h5, h6⟩ := henv e (List.mem_cons_self _ _)
    simp only [List.length_cons] at hlen
    obtain ⟨hc, hmax, hleave⟩ :=
      udp_flood_iteration_two_sends sz_max F e s h1 h2 h3 h4 h5 h6 (by omega) hm2
    unfold udp_flood_loop
    simp only []
    by_cases hl : (udp_flood_iteration sz_max F e s).leave = true
    · simp [hl]
    · have hes : es ≠ [] := by
        intro hnil
        apply hl
        rw [hleave, ← hlen, hnil]
        rfl
      have hrec := ih (udp_flood_iteration sz_max F e s).state
        (fun e1 he1 => henv e1 (List.mem_cons_of_mem _ he1))
        (by rw [hc, hmax]; omega) hes (by rw [hmax]; exact hm2)
      simp only [hl, if_false]
      cases hx : udp_flood_loop sz_max F es (udp_flood_iteration sz_max F e s).state with
      | none => rw [hx] at hrec; cases hrec
      | some p => rfl

theorem stress_udp_flood_isSome {D : Type} (F : DoubleSumOps D) (MB : Nat)
    (EPROTONOSUPPORT : Int) (env : udp_flood_env D) (args : stress_args_t)
    (hsock : ¬ env.socket_ret < 0) :
    (stress_udp_flood F MB EPROTONOSUPPORT env args).isSome =
      (udp_flood_loop (STRESS_MINIMUM ((23 + args.instance_no) % 2 ^ 32) MAX_UDP_SIZE) F
        env.iterations
        { args := args, port := 1024, j := 0, sz := 1, bytes := F.zero }).isSome := by
  unfold stress_udp_flood
  simp only [hsock, if_false]
  cases udp_flood_loop (STRESS_MINIMUM ((23 + args.instance_no) % 2 ^ 32) MAX_UDP_SIZE) F
    env.iterations { args := args, port := 1024, j := 0, sz := 1, bytes := F.zero } <;> rfl

theorem udp_flood_env_500_returns :
    (stress_udp_flood rat_sum_ops (2 ^ 20) 93 udp_flood_env_500
      ⟨⟨0, true, true, false⟩, 1000, 0⟩).isSome = true := by
  have henv : ∀ e ∈ List.replicate 500 udp_iter_env_two_sends,
      ¬ e.reserved_port < 0 ∧ e.n > 0 ∧ ¬ e.reserved_rand_port < 0 ∧ e.n_rand > 0 ∧
      e.g_mid.g_stress_continue_flag = true ∧ e.g_end.g_stress_continue_flag = true := by
    intro e he
    rw [List.eq_of_mem_replicate he]
    exact ⟨by decide, by decide, by decide, by decide, rfl, rfl⟩
  have hlen : (List.replicate 500 udp_iter_env_two_sends).length = 500 :=
    List.length_replicate _ _
  have hne : List.replicate 500 udp_iter_env_two_sends ≠ [] := by
    intro h
    rw [h] at hlen
    exact absurd hlen (by decide)
  have hloop := udp_flood_loop_two_sends
    (STRESS_MINIMUM ((23 + 0) % 2 ^ 32) MAX_UDP_SIZE) rat_sum_ops
    (List.replicate 500 udp_iter_env_two_sends)
    { args := ⟨⟨0, true, true, false⟩, 1000, 0⟩, port := 1024, j := 0, sz := 1,
      bytes := rat_sum_ops.zero }
    henv (by rw [hlen]) hne (by norm_num)
  rw [stress_udp_flood_isSome _ _ _ _ _ (by decide)]
  exact hloop

/-- C18: in a run of `stress_udp_flood` whose `socket()` succeeded, with
`1 <= max_ops` (a `uint64_t`), the counter starting at 0 and the continue flag
true at every check, if the loop leaves then the final counter equals
`max_ops`; in every iteration each `inc_counter` is followed by a
`keep_stressing` check before the next `inc_counter`.  Hence four such runs
with `max_ops = 1000` total 4000. -/
theorem stress_udp_flood_counter_max_ops {D : Type} (F : DoubleSumOps D) (MB : Nat)
    (EPROTONOSUPPORT : Int) :
    (∀ (env : udp_flood_env D) (args : stress_args_t) (r : udp_flood_result D),
      1 ≤ args.max_ops → args.max_ops < 2 ^ 64 → args.ci.counter = 0 →
      ¬ env.socket_ret < 0 →
      (∀ e ∈ env.iterations, e.g_mid.g_stress_continue_flag = true ∧
        e.g_end.g_stress_continue_flag = true) →
      stress_udp_flood F MB EPROTONOSUPPORT env args = some r →
      r.args.ci.counter = args.max_ops ∧
      ∀ it ∈ r.calls, check_follows_each_inc it = true) ∧
    (∀ runs : List (udp_flood_env D × stress_args_t × udp_flood_result D),
      runs.length = 4 →
      (∀ x ∈ runs, x.2.1.max_ops = 1000 ∧ x.2.1.ci.counter = 0 ∧
        ¬ x.1.socket_ret < 0 ∧
        (∀ e ∈ x.1.iterations, e.g_mid.g_stress_continue_flag = true ∧
          e.g_end.g_stress_continue_flag = true) ∧
        stress_udp_flood F MB EPROTONOSUPPORT x.1 x.2.1 = some x.2.2) →
      (runs.map (fun x => x.2.2.args.ci.counter)).sum = 4000) := by
  have single : ∀ (env : udp_flood_env D) (args : stress_args_t) (r : udp_flood_result D),
      1 ≤ args.max_ops → args.max_ops < 2 ^ 64 → args.ci.counter = 0 →
      ¬ env.socket_ret < 0 →
      (∀ e ∈ env.iterations, e.g_mid.g_stress_continue_flag = true ∧
        e.g_end.g_stress_continue_flag = true) →
      stress_udp_flood F MB EPROTONOSUPPORT env args = some r →
      r.args.ci.counter = args.max_ops ∧
      ∀ it ∈ r.calls, check_follows_each_inc it = true := by
    intro env args r hm1 hm2 h0 hsock hflags hr
    obtain ⟨final, hloop, hargs, _, _⟩ :=
      stress_udp_flood_some F MB EPROTONOSUPPORT env args r hsock hr
    constructor
    · rw [hargs]
      exact udp_flood_loop_budget _ F env.iterations _ final r.calls hm1 hm2 hflags
        (by simp only [h0]; omega) hloop
    · exact udp_flood_loop_calls_forall _ F (fun it => check_follows_each_inc it = true)
        (fun e s => udp_flood_iteration_check_follows _ F e s) env.iterations _ final
        r.calls hloop
  refine ⟨single, ?_⟩
  intro runs hlen hruns
  have hall : ∀ x ∈ runs, x.2.2.args.ci.counter = 1000 := by
    intro x hx
    obtain ⟨hm, h0, hsock, hflags, hr⟩ := hruns x hx
    rw [(single x.1 x.2.1 x.2.2 (by omega) (by omega) h0 hsock hflags hr).1, hm]
  have hsum : ∀ l : List (udp_flood_env D × stress_args_t × udp_flood_result D),
      (∀ x ∈ l, x.2.2.args.ci.counter = 1000) →
      (l.map (fun x => x.2.2.args.ci.counter)).sum = l.length * 1000 := by
    intro l
    induction l with
    | nil => intro _; simp
    | cons x xs ih =>
      intro hl
      simp only [List.map_cons, List.sum_cons, List.length_cons]
      rw [ih (fun y hy => hl y (List.mem_cons_of_mem _ hy)), hl x (List.mem_cons_self _ _)]
      omega
  rw [hsum runs hall, hlen]

/-- Instance of C18: with `max_ops = 2`, one iteration with two successful
one-byte `sendto` calls leaves the counter at 2; with `max_ops = 1000`, the
run of 500 such iterations returns, and four such runs total 4000. -/
theorem stress_udp_flood_counter_max_ops_witness :
    (∃ r, stress_udp_flood rat_sum_ops (2 ^ 20) 93
        ⟨3, 0, 0, 0, 2, [udp_iter_env_two_sends]⟩
        ⟨⟨0, true, true, false⟩, 2, 0⟩ = some r ∧ r.args.ci.counter = 2) ∧
    (∃ r, stress_udp_flood rat_sum_ops (2 ^ 20) 93 udp_flood_env_500
        ⟨⟨0, true, true, false⟩, 1000, 0⟩ = some r ∧
      (([r, r, r, r].map (fun x => x.args.ci.counter)).sum = 4000)) := by
  constructor
  · have hsome : stress_udp_flood rat_sum_ops (2 ^ 20) 93
        ⟨3, 0, 0, 0, 2, [udp_iter_env_two_sends]⟩
        ⟨⟨0, true, true, false⟩, 2, 0⟩ ≠ none := by
      simp [stress_udp_flood, udp_flood_loop, udp_flood_iteration, udp_next, udp_sent,
        stress_continue, stress_bogo_get, stress_bogo_inc, exec_inc_body, UINT64_MOD,
        udp_iter_env_two_sends]
    cases hr : stress_udp_flood rat_sum_ops (2 ^ 20) 93
        ⟨3, 0, 0, 0, 2, [udp_iter_env_two_sends]⟩ ⟨⟨0, true, true, false⟩, 2, 0⟩ with
    | none => exact absurd hr hsome
    | some r =>
      exact ⟨r, rfl, ((stress_udp_flood_counter_max_ops rat_sum_ops (2 ^ 20) 93).1
        ⟨3, 0, 0, 0, 2, [udp_iter_env_two_sends]⟩
        ⟨⟨0, true, true, false⟩, 2, 0⟩ r (by decide) (by decide) rfl (by decide)
        (by intro e he; simp at he; subst he; exact ⟨rfl, rfl⟩) hr).1⟩
  · cases hr : stress_udp_flood rat_sum_ops (2 ^ 20) 93 udp_flood_env_500
        ⟨⟨0, true, true, false⟩, 1000, 0⟩ with
    | none =>
      have h := udp_flood_env_500_returns
      rw [hr] at h
      cases h
    | some r =>
      refine ⟨r, rfl, ?_⟩
      have h := (stress_udp_flood_counter_max_ops rat_sum_ops (2 ^ 20) 93).2
        [(udp_flood_env_500, ⟨⟨0, true, true, false⟩, 1000, 0⟩, r),
         (udp_flood_env_500, ⟨⟨0, true, true, false⟩, 1000, 0⟩, r),
         (udp_flood_env_500, ⟨⟨0, true, true, false⟩, 1000, 0⟩, r),
         (udp_flood_env_500, ⟨⟨0, true, true, false⟩, 1000, 0⟩, r)] rfl
        (by
          intro x hx
          have hx1 : x = (udp_flood_env_500, ⟨⟨0, true, true, false⟩, 1000, 0⟩, r) := by
            simpa using hx
          subst hx1
          refine ⟨rfl, rfl, (by show ¬ ((3 : Int) < 0); decide), ?_, hr⟩
          intro e he
          rw [List.eq_of_mem_replicate he]
          exact ⟨rfl, rfl⟩)
      simpa using h

theorem stress_bogo_inc_lock_step (g : Globals) (args : stress_args_t)
    (acquire_ret : Int) (inc : Bool) (hm : args.max_ops ≠ 0) :
    (stress_bogo_inc_lock g args acquire_ret inc).2.1.max_ops = args.max_ops ∧
    (args.ci.counter ≤ args.max_ops →
      (stress_bogo_inc_lock g args acquire_ret inc).2.1.ci.counter ≤ args.max_ops) ∧
    (args.ci.counter = args.max_ops →
      (stress_bogo_inc_lock g args acquire_ret inc).2.1 = args ∧
      (stress_bogo_inc_lock g args acquire_ret inc).1 = false) := by
  have hcont : stress_continue g args = true → args.ci.counter < args.max_ops := by
    intro h
    unfold stress_continue stress_bogo_get at h
    cases hg : g.g_stress_continue_flag <;> simp [hg, hm] at h
    exact h
  have hinc : (stress_bogo_inc args).max_ops = args.max_ops ∧
      (stress_bogo_inc args).ci.counter = (args.ci.counter + 1) % 2 ^ 64 := ⟨rfl, rfl⟩
  by_cases ha : acquire_ret < 0
  · have hr : stress_bogo_inc_lock g args acquire_ret inc =
        (stress_continue g args, args, [LockCall.acquire]) := by
      simp [stress_bogo_inc_lock, ha]
    rw [hr]
    refine ⟨rfl, fun h => h, fun h => ⟨rfl, ?_⟩⟩
    cases hc : stress_continue g args
    · rfl
    · have := hcont hc
      omega
  · have hr : stress_bogo_inc_lock g args acquire_ret inc =
        (stress_continue g args,
         if (inc && stress_continue g args) = true then stress_bogo_inc args else args,
         [LockCall.acquire, LockCall.release]) := by
      simp [stress_bogo_inc_lock, ha]
    rw [hr]
    cases hc : stress_continue g args
    · cases inc <;> exact ⟨rfl, fun h => h, fun _ => ⟨rfl, rfl⟩⟩
    · have hlt := hcont hc
      cases inc
      · exact ⟨rfl, fun h => h, fun h => by omega⟩
      · refine ⟨hinc.1, fun _ => ?_, fun h => by omega⟩
        show (stress_bogo_inc args).ci.counter ≤ args.max_ops
        rw [hinc.2]
        exact Nat.le_trans (Nat.mod_le _ _) hlt

/-- C21: with `max_ops != 0` and `counter <= max_ops` before the call,
`counter <= max_ops` holds after `stress_bogo_inc_lock` for either outcome of
`stress_lock_acquire` and either `inc`; with `counter == max_ops` the call
leaves `args` unchanged and returns false.  The same holds along every
sequence of calls. -/
theorem stress_bogo_inc_lock_budget (g : Globals) (args : stress_args_t)
    (acquire_ret : Int) (inc : Bool) :
    (args.max_ops ≠ 0 → args.ci.counter ≤ args.max_ops →
      (stress_bogo_inc_lock g args acquire_ret inc).2.1.ci.counter ≤ args.max_ops) ∧
    (args.max_ops ≠ 0 → args.ci.counter = args.max_ops →
      (stress_bogo_inc_lock g args acquire_ret inc).2.1 = args ∧
      (stress_bogo_inc_lock g args acquire_ret inc).1 = false) ∧
    (∀ calls : List (Globals × Int × Bool),
      args.max_ops ≠ 0 → args.ci.counter ≤ args.max_ops →
      (run_bogo_inc_lock args calls).1.ci.counter ≤ args.max_ops) ∧
    (∀ calls : List (Globals × Int × Bool),
      args.max_ops ≠ 0 → args.ci.counter = args.max_ops →
      (run_bogo_inc_lock args calls).1 = args ∧
      ∀ b ∈ (run_bogo_inc_lock args calls).2, b = false) := by
  refine ⟨fun hm => (stress_bogo_inc_lock_step g args acquire_ret inc hm).2.1,
    fun hm => (stress_bogo_inc_lock_step g args acquire_ret inc hm).2.2, ?_, ?_⟩
  · intro calls
    induction calls generalizing args with
    | nil => intro _ h; exact h
    | cons c rest ih =>
      intro hm hle
      obtain ⟨h1, h2, _⟩ := stress_bogo_inc_lock_step c.1 args c.2.1 c.2.2 hm
      show (run_bogo_inc_lock (stress_bogo_inc_lock c.1 args c.2.1 c.2.2).2.1
        rest).1.ci.counter ≤ args.max_ops
      rw [← h1]
      exact ih _ (by rw [h1]; exact hm) (by rw [h1]; exact h2 hle)
  · intro calls
    induction calls generalizing args with
    | nil => intro _ _; exact ⟨rfl, fun b hb => by cases hb⟩
    | cons c rest ih =>
      intro hm heq
      obtain ⟨_, _, h3⟩ := stress_bogo_inc_lock_step c.1 args c.2.1 c.2.2 hm
      obtain ⟨hargs, hret⟩ := h3 heq
      have hrun : run_bogo_inc_lock args (c :: rest) =
          ((run_bogo_inc_lock (stress_bogo_inc_lock c.1 args c.2.1 c.2.2).2.1 rest).1,
           (stress_bogo_inc_lock c.1 args c.2.1 c.2.2).1 ::
           (run_bogo_inc_lock (stress_bogo_inc_lock c.1 args c.2.1 c.2.2).2.1 rest).2) := rfl
      rw [hrun, hargs, hret]
      obtain ⟨ih1, ih2⟩ := ih args hm heq
      refine ⟨ih1, ?_⟩
      intro b hb
      rcases List.mem_cons.mp hb with hb | hb
      · exact hb
      · exact ih2 b hb

/-- Instance of C21: `max_ops = 3`, counter 2, flag set: the first call with a
successful acquire and `inc` true brings the counter to 3 and returns true, the
two further calls (acquire successful, acquire failed) leave it at 3 and
return false. -/
theorem stress_bogo_inc_lock_budget_witness :
    (3 : Nat) ≠ 0 ∧ (2 : Nat) ≤ 3 ∧
    (run_bogo_inc_lock ⟨⟨2, true, true, false⟩, 3, 0⟩
      [(⟨0, 0, true⟩, 0, true), (⟨0, 0, true⟩, 0, true),
       (⟨0, 0, true⟩, -1, true)]).1.ci.counter ≤ 3 ∧
    (run_bogo_inc_lock ⟨⟨2, true, true, false⟩, 3, 0⟩
      [(⟨0, 0, true⟩, 0, true), (⟨0, 0, true⟩, 0, true), (⟨0, 0, true⟩, -1, true)]) =
      (⟨⟨3, true, true, false⟩, 3, 0⟩, [true, false, false]) :=
  ⟨by decide, by decide,
   (stress_bogo_inc_lock_budget ⟨0, 0, true⟩ ⟨⟨2, true, true, false⟩, 3, 0⟩ 0 true).2.2.1
     [(⟨0, 0, true⟩, 0, true), (⟨0, 0, true⟩, 0, true), (⟨0, 0, true⟩, -1, true)]
     (by decide) (by decide),
   by decide⟩

/-! ## Theorems: payload sizes, ports and reservations in `stress_udp_flood` -/

theorem udp_flood_loop_calls_inv {D : Type} (sz_max : Nat) (F : DoubleSumOps D)
    (Inv : udp_loop_state D → Prop) (E : udp_iter_env → Prop)
    (A P : List udp_call → Prop)
    (hstep : ∀ (e : udp_iter_env) (s : udp_loop_state D), E e → Inv s →
      A (udp_flood_iteration sz_max F e s).calls →
      P (udp_flood_iteration sz_max F e s).calls ∧
        Inv (udp_flood_iteration sz_max F e s).state)
    (envs : List udp_iter_env) :
    ∀ (s final : udp_loop_state D) (calls : List (List udp_call)),
      Inv s → (∀ e ∈ envs, E e) →
      udp_flood_loop sz_max F envs s = some (final, calls) →
      (∀ it ∈ calls, A it) → (∀ it ∈ calls, P it) ∧ Inv final := by
  induction envs with
  | nil => intro s final calls _ _ h; simp [udp_flood_loop] at h
  | cons e es ih =>
    intro s final calls hinv henv h hA
    rcases udp_flood_loop_cons_some sz_max F e es s final calls h with
      ⟨_, hf, hcalls⟩ | ⟨_, cs, hrec, hcalls⟩
    · have hs := hstep e s (henv e (List.mem_cons_self _ _)) hinv
        (hA _ (by rw [hcalls]; exact List.mem_singleton_self _))
      refine ⟨?_, by rw [hf]; exact hs.2⟩
      intro it hit
      rw [hcalls, List.mem_singleton] at hit
      rw [hit]
      exact hs.1
    · have hs := hstep e s (henv e (List.mem_cons_self _ _)) hinv
        (hA _ (by rw [hcalls]; exact List.mem_cons_self _ _))
      have hr := ih _ final cs hs.2 (fun e1 he1 => henv e1 (List.mem_cons_of_mem _ he1)) hrec
        (fun it hit => hA it (by rw [hcalls]; exact List.mem_cons_of_mem _ hit))
      refine ⟨?_, hr.2⟩
      intro it hit
      rw [hcalls] at hit
      rcases List.mem_cons.mp hit with hit | hit
      · rw [hit]; exact hs.1
      · exact hr.1 it hit

theorem udp_sent_calls {D : Type} (F : DoubleSumOps D) (n : Int) (a : stress_args_t)
    (b : D) :
    (udp_sent F n a b).2.2 = [] ∨ (udp_sent F n a b).2.2 = [udp_call.inc_counter] := by
  unfold udp_sent
  split
  · right; rfl
  · left; rfl

theorem udp_flood_iteration_shape {D : Type} (sz_max : Nat) (F : DoubleSumOps D)
    (e : udp_iter_env) (s : udp_loop_state D) :
    ∃ X Y X2 : List udp_call,
      (X = [] ∨ X = [udp_call.inc_counter]) ∧ (Y = [] ∨ Y = [udp_call.ioctl_outq]) ∧
      (X2 = [] ∨ X2 = [udp_call.inc_counter]) ∧
      ((e.reserved_port < 0 ∧ ∃ k,
          (udp_flood_iteration sz_max F e s).calls =
            [udp_call.reserve_ports (next_port s.port) e.reserved_port,
             udp_call.keep_stressing k] ∧
          (udp_flood_iteration sz_max F e s).state.port = next_port s.port ∧
          (udp_flood_iteration sz_max F e s).state.sz = s.sz) ∨
       (¬ e.reserved_port < 0 ∧
          (udp_flood_iteration sz_max F e s).calls =
            [udp_call.reserve_ports (next_port s.port) e.reserved_port,
             udp_call.set_sockaddr_port e.reserved_port,
             udp_call.memset (s.j &&& 63) s.sz, udp_call.sendto s.sz e.n] ++ X ++ Y ++
            [udp_call.release_ports e.reserved_port, udp_call.keep_stressing false] ∧
          (udp_flood_iteration sz_max F e s).state.port = e.reserved_port ∧
          (udp_flood_iteration sz_max F e s).state.sz = s.sz) ∨
       (¬ e.reserved_port < 0 ∧ e.reserved_rand_port < 0 ∧ ∃ k,
          (udp_flood_iteration sz_max F e s).calls =
            [udp_call.reserve_ports (next_port s.port) e.reserved_port,
             udp_call.set_sockaddr_port e.reserved_port,
             udp_call.memset (s.j &&& 63) s.sz, udp_call.sendto s.sz e.n] ++ X ++ Y ++
            [udp_call.release_ports e.reserved_port, udp_call.keep_stressing true,
             udp_call.reserve_ports (1024 + (e.mwc : Int)) e.reserved_rand_port,
             udp_call.keep_stressing k] ∧
          (udp_flood_iteration sz_max F e s).state.port = e.reserved_port ∧
          (udp_flood_iteration sz_max F e s).state.sz = s.sz) ∨
       (¬ e.reserved_port < 0 ∧ ¬ e.reserved_rand_port < 0 ∧ ∃ k,
          (udp_flood_iteration sz_max F e s).calls =
            [udp_call.reserve_ports (next_port s.port) e.reserved_port,
             udp_call.set_sockaddr_port e.reserved_port,
             udp_call.memset (s.j &&& 63) s.sz, udp_call.sendto s.sz e.n] ++ X ++ Y ++
            [udp_call.release_ports e.reserved_port, udp_call.keep_stressing true,
             udp_call.reserve_ports (1024 + (e.mwc : Int)) e.reserved_rand_port,
             udp_call.set_sockaddr_port e.reserved_rand_port,
             udp_call.sendto s.sz e.n_rand] ++ X2 ++
            [udp_call.release_ports e.reserved_rand_port, udp_call.keep_stressing k] ∧
          (udp_flood_iteration sz_max F e s).state.port = e.reserved_port ∧
          (udp_flood_iteration sz_max F e s).state.sz = sz_step sz_max s.sz)) := by
  refine ⟨(udp_sent F e.n s.args s.bytes).2.2,
    (if e.reserved_port.toNat &&& 0x1f = 0 then [udp_call.ioctl_outq] else []),
    (udp_sent F e.n_rand (udp_sent F e.n s.args s.bytes).1
      (udp_sent F e.n s.args s.bytes).2.1).2.2,
    udp_sent_calls F _ _ _, ?_, udp_sent_calls F _ _ _, ?_⟩
  · split
    · right; rfl
    · left; rfl
  · unfold udp_flood_iteration
    simp only []
    by_cases hr1 : e.reserved_port < 0
    · left
      rw [if_pos hr1]
      exact ⟨hr1, _, rfl, rfl, rfl⟩
    · rw [if_neg hr1]
      cases hk : stress_continue e.g_mid (udp_sent F e.n s.args s.bytes).1 with
      | false =>
        right; left
        rw [if_pos (show (!false) = true from rfl)]
        refine ⟨hr1, ?_, rfl, rfl⟩
        simp only [next_port, List.append_assoc, List.cons_append, List.nil_append]
      | true =>
        rw [if_neg (show ¬ ((!true) = true) by simp)]
        by_cases hr2 : e.reserved_rand_port < 0
        · right; right; left
          rw [if_pos hr2]
          refine ⟨hr1, hr2, stress_continue e.g_end (udp_sent F e.n s.args s.bytes).1,
            ?_, rfl, rfl⟩
          simp only [udp_next, next_port, List.append_assoc, List.cons_append,
            List.nil_append]
        · right; right; right
          rw [if_neg hr2]
          refine ⟨hr1, hr2, stress_continue e.g_end
            (udp_sent F e.n_rand (udp_sent F e.n s.args s.bytes).1
              (udp_sent F e.n s.args s.bytes).2.1).1, ?_, rfl, rfl⟩
          simp only [udp_next, next_port, List.append_assoc, List.cons_append,
            List.nil_append]

theorem udp_flood_iteration_payload {D : Type} (sz_max : Nat) (F : DoubleSumOps D)
    (e : udp_iter_env) (s : udp_loop_state D) (lo hi : Nat)
    (h : lo ≤ s.sz ∧ s.sz ≤ hi) :
    payload_sizes_in lo hi (udp_flood_iteration sz_max F e s).calls = true ∧
    ((udp_flood_iteration sz_max F e s).state.sz = s.sz ∨
      (udp_flood_iteration sz_max F e s).state.sz = sz_step sz_max s.sz) := by
  obtain ⟨X, Y, X2, hX, hY, hX2, hshape⟩ := udp_flood_iteration_shape sz_max F e s
  rcases hshape with ⟨_, k, hc, _, hsz⟩ | ⟨_, hc, _, hsz⟩ | ⟨_, _, k, hc, _, hsz⟩ |
    ⟨_, _, k, hc, _, hsz⟩
  · rw [hc]
    exact ⟨by simp [payload_sizes_in], Or.inl hsz⟩
  · rw [hc]
    refine ⟨?_, Or.inl hsz⟩
    rcases hX with rfl | rfl <;> rcases hY with rfl | rfl <;> simp [payload_sizes_in, h]
  · rw [hc]
    refine ⟨?_, Or.inl hsz⟩
    rcases hX with rfl | rfl <;> rcases hY with rfl | rfl <;> simp [payload_sizes_in, h]
  · rw [hc]
    refine ⟨?_, Or.inr hsz⟩
    rcases hX with rfl | rfl <;> rcases hY with rfl | rfl <;> rcases hX2 with rfl | rfl <;>
      simp [payload_sizes_in, h]

theorem sz_step_bounds (sz_max sz : Nat) :
    (sz_max ≤ 2048 → 1 ≤ sz ∧ sz ≤ 2047 →
      1 ≤ sz_step sz_max sz ∧ sz_step sz_max sz ≤ 2047) ∧
    (2 ≤ sz_max → 1 ≤ sz ∧ sz ≤ sz_max - 1 →
      1 ≤ sz_step sz_max sz ∧ sz_step sz_max sz ≤ sz_max - 1) := by
  unfold sz_step
  constructor
  · intro h1 h2
    split <;> omega
  · intro h1 h2
    split <;> omega

theorem stress_udp_flood_calls {D : Type} (F : DoubleSumOps D) (MB : Nat)
    (EPROTONOSUPPORT : Int) (env : udp_flood_env D) (args : stress_args_t)
    (r : udp_flood_result D)
    (h : stress_udp_flood F MB EPROTONOSUPPORT env args = some r) :
    r.calls = [] ∨ ∃ final : udp_loop_state D,
      udp_flood_loop (STRESS_MINIMUM ((23 + args.instance_no) % 2 ^ 32) MAX_UDP_SIZE) F
        env.iterations { args := args, port := 1024, j := 0, sz := 1, bytes := F.zero } =
        some (final, r.calls) := by
  by_cases hsock : env.socket_ret < 0
  · left
    unfold stress_udp_flood at h
    by_cases he : env.socket_errno = EPROTONOSUPPORT
    · simp only [hsock, he, if_true, Option.some.injEq] at h
      rw [← h]
    · simp only [hsock, he, if_true, if_false, Option.some.injEq] at h
      rw [← h]
  · right
    obtain ⟨final, hloop, _⟩ := stress_udp_flood_some F MB EPROTONOSUPPORT env args r hsock h
    exact ⟨final, hloop⟩

theorem STRESS_MINIMUM_eq_min (a b : Nat) : STRESS_MINIMUM a b = min a b := by
  unfold STRESS_MINIMUM
  split <;> omega

/-- C22: for every instance number, `sz_max` is
`min((23 + instance) mod 2^32, 2048)`; in a run of `stress_udp_flood` the
payload length of every `shim_memset` and `sendto` call lies in `[1, 2047]`,
and in `[1, sz_max - 1]` when `sz_max >= 2` (in `[1, 22]` for instance 0).  An
iteration leaves `sz` as it was or steps it by `++sz >= sz_max ? 1`; for
`sz_max = 23` the step runs through 1, 2, ..., 22 and back to 1. -/
theorem stress_udp_flood_payload_sizes {D : Type} (F : DoubleSumOps D) (MB : Nat)
    (EPROTONOSUPPORT : Int) (env : udp_flood_env D) (args : stress_args_t)
    (r : udp_flood_result D)
    (hr : stress_udp_flood F MB EPROTONOSUPPORT env args = some r) :
    STRESS_MINIMUM ((23 + args.instance_no) % 2 ^ 32) MAX_UDP_SIZE =
      min ((23 + args.instance_no) % 2 ^ 32) 2048 ∧
    (∀ it ∈ r.calls, payload_sizes_in 1 2047 it = true) ∧
    (2 ≤ STRESS_MINIMUM ((23 + args.instance_no) % 2 ^ 32) MAX_UDP_SIZE →
      ∀ it ∈ r.calls, payload_sizes_in 1
        (STRESS_MINIMUM ((23 + args.instance_no) % 2 ^ 32) MAX_UDP_SIZE - 1) it = true) ∧
    (args.instance_no = 0 → ∀ it ∈ r.calls, payload_sizes_in 1 22 it = true) ∧
    (∀ (e : udp_iter_env) (s : udp_loop_state D),
      (udp_flood_iteration
          (STRESS_MINIMUM ((23 + args.instance_no) % 2 ^ 32) MAX_UDP_SIZE) F e s).state.sz =
        s.sz ∨
      (udp_flood_iteration
          (STRESS_MINIMUM ((23 + args.instance_no) % 2 ^ 32) MAX_UDP_SIZE) F e s).state.sz =
        sz_step (STRESS_MINIMUM ((23 + args.instance_no) % 2 ^ 32) MAX_UDP_SIZE) s.sz) ∧
    (∀ k, k < 22 → (sz_step 23)^[k] 1 = k + 1) ∧ (sz_step 23)^[22] 1 = 1 := by
  have hmin := STRESS_MINIMUM_eq_min ((23 + args.instance_no) % 2 ^ 32) MAX_UDP_SIZE
  have hmax : STRESS_MINIMUM ((23 + args.instance_no) % 2 ^ 32) MAX_UDP_SIZE ≤ 2048 := by
    rw [hmin]; exact Nat.min_le_right _ _
  have hall : ∀ lo hi : Nat, lo ≤ 1 → 1 ≤ hi →
      (∀ sz, lo ≤ sz ∧ sz ≤ hi →
        lo ≤ sz_step (STRESS_MINIMUM ((23 + args.instance_no) % 2 ^ 32) MAX_UDP_SIZE) sz ∧
        sz_step (STRESS_MINIMUM ((23 + args.instance_no) % 2 ^ 32) MAX_UDP_SIZE) sz ≤ hi) →
      ∀ it ∈ r.calls, payload_sizes_in lo hi it = true := by
    intro lo hi hlo hhi hstep
    rcases stress_udp_flood_calls F MB EPROTONOSUPPORT env args r hr with hnil | ⟨final, hloop⟩
    · rw [hnil]; intro it hit; cases hit
    · exact (udp_flood_loop_calls_inv _ F (fun s => lo ≤ s.sz ∧ s.sz ≤ hi) (fun _ => True)
        (fun _ => True) (fun it => payload_sizes_in lo hi it = true)
        (fun e s _ hinv _ => by
          obtain ⟨hp, hs⟩ := udp_flood_iteration_payload _ F e s lo hi hinv
          refine ⟨hp, ?_⟩
          rcases hs with hs | hs
          · rw [hs]; exact hinv
          · rw [hs]; exact hstep _ hinv)
        env.iterations _ final r.calls ⟨hlo, hhi⟩ (fun _ _ => trivial) hloop
        (fun _ _ => trivial)).1
  refine ⟨hmin, ?_, ?_, ?_, ?_, ?_, ?_⟩
  · exact hall 1 2047 (Nat.le_refl _) (by omega)
      (fun sz h => (sz_step_bounds _ sz).1 hmax h)
  · intro h2
    exact hall 1 _ (Nat.le_refl _) (by omega) (fun sz h => (sz_step_bounds _ sz).2 h2 h)
  · intro h0
    have h23 : STRESS_MINIMUM ((23 + args.instance_no) % 2 ^ 32) MAX_UDP_SIZE = 23 := by
      rw [h0]; decide
    exact hall 1 22 (Nat.le_refl _) (by omega)
      (fun sz h => by
        have := (sz_step_bounds 23 sz).2 (by omega) h
        rw [h23]; exact this)
  · intro e s
    exact (udp_flood_iteration_payload _ F e s s.sz s.sz ⟨Nat.le_refl _, Nat.le_refl _⟩).2
  · decide
  · decide

theorem next_port_range (p : Int) (h : 1024 ≤ p ∧ p ≤ 65535) :
    1024 ≤ next_port p ∧ next_port p ≤ 65535 ∧ (p = 65535 → next_port p = 1024) ∧
    (p < 65535 → next_port p = p + 1) := by
  unfold next_port
  split <;> omega

theorem udp_flood_iteration_sequential {D : Type} (sz_max : Nat) (F : DoubleSumOps D)
    (e : udp_iter_env) (s : udp_loop_state D) :
    sequential_port (udp_flood_iteration sz_max F e s).calls = some (next_port s.port) := by
  obtain ⟨X, Y, X2, _, _, _, hshape⟩ := udp_flood_iteration_shape sz_max F e s
  rcases hshape with ⟨_, k, hc, _, _⟩ | ⟨_, hc, _, _⟩ | ⟨_, _, k, hc, _, _⟩ |
    ⟨_, _, k, hc, _, _⟩ <;> rw [hc] <;> rfl

theorem udp_flood_iteration_ports {D : Type} (sz_max : Nat) (F : DoubleSumOps D)
    (e : udp_iter_env) (s : udp_loop_state D) (hE : e.mwc < 65535 - 1024)
    (hinv : 1024 ≤ s.port ∧ s.port ≤ 65535)
    (hA : reserve_returns_requested (udp_flood_iteration sz_max F e s).calls = true) :
    (ports_in 1024 65535 (udp_flood_iteration sz_max F e s).calls = true ∧
      ports_in 1024 65534
        (calls_after_check (udp_flood_iteration sz_max F e s).calls) = true) ∧
    (udp_flood_iteration sz_max F e s).state.port = next_port s.port := by
  obtain ⟨hn1, hn2, _, _⟩ := next_port_range s.port hinv
  have hm1 : (1024 : Int) ≤ 1024 + (e.mwc : Int) := by omega
  have hm2 : 1024 + (e.mwc : Int) ≤ 65534 := by omega
  have hm3 : 1024 + (e.mwc : Int) ≤ 65535 := by omega
  obtain ⟨X, Y, X2, hX, hY, hX2, hshape⟩ := udp_flood_iteration_shape sz_max F e s
  rcases hshape with ⟨_, k, hc, hport, _⟩ | ⟨hr1, hc, hport, _⟩ |
    ⟨hr1, hr2, k, hc, hport, _⟩ | ⟨hr1, hr2, k, hc, hport, _⟩
  · rw [hc, hport]
    simp [ports_in, calls_after_check, hn1, hn2]
  · rw [hc] at hA
    rw [hc, hport]
    have hret : e.reserved_port = next_port s.port := by
      rcases hX with rfl | rfl <;> rcases hY with rfl | rfl <;>
        simp [reserve_returns_requested] at hA <;> omega
    rw [hret]
    refine ⟨?_, rfl⟩
    rcases hX with rfl | rfl <;> rcases hY with rfl | rfl <;>
      simp [ports_in, calls_after_check, hn1, hn2]
  · rw [hc] at hA
    rw [hc, hport]
    have hret : e.reserved_port = next_port s.port := by
      rcases hX with rfl | rfl <;> rcases hY with rfl | rfl <;>
        simp [reserve_returns_requested] at hA <;> omega
    rw [hret]
    refine ⟨?_, rfl⟩
    rcases hX with rfl | rfl <;> rcases hY with rfl | rfl <;>
      simp [ports_in, calls_after_check, hn1, hn2, hm1, hm2, hm3]
  · rw [hc] at hA
    rw [hc, hport]
    have hret : e.reserved_port = next_port s.port ∧
        e.reserved_rand_port = 1024 + (e.mwc : Int) := by
      rcases hX with rfl | rfl <;> rcases hY with rfl | rfl <;>
        rcases hX2 with rfl | rfl <;>
        simp [reserve_returns_requested] at hA <;> omega
    rw [hret.1, hret.2]
    refine ⟨?_, rfl⟩
    rcases hX with rfl | rfl <;> rcases hY with rfl | rfl <;> rcases hX2 with rfl | rfl <;>
      simp [ports_in, calls_after_check, hn1, hn2, hm1, hm2, hm3]

theorem udp_flood_loop_sequential {D : Type} (sz_max : Nat) (F : DoubleSumOps D)
    (envs : List udp_iter_env) :
    ∀ (s final : udp_loop_state D) (calls : List (List udp_call)),
      (∀ e ∈ envs, e.mwc < 65535 - 1024) → 1024 ≤ s.port ∧ s.port ≤ 65535 →
      udp_flood_loop sz_max F envs s = some (final, calls) →
      (∀ it ∈ calls, reserve_returns_requested it = true) →
      sequential_ports_step s.port calls = true := by
  induction envs with
  | nil => intro s final calls _ _ h; simp [udp_flood_loop] at h
  | cons e es ih =>
    intro s final calls henv hinv h hA
    have hseq := udp_flood_iteration_sequential sz_max F e s
    rcases udp_flood_loop_cons_some sz_max F e es s final calls h with
      ⟨_, _, hcalls⟩ | ⟨_, cs, hrec, hcalls⟩
    · rw [hcalls]
      simp [sequential_ports_step, hseq]
    · have hAe := hA _ (by rw [hcalls]; exact List.mem_cons_self _ _)
      have hp := (udp_flood_iteration_ports sz_max F e s
        (henv e (List.mem_cons_self _ _)) hinv hAe).2
      have hrange := next_port_range s.port hinv
      have hrec2 := ih _ final cs (fun e1 he1 => henv e1 (List.mem_cons_of_mem _ he1))
        (by rw [hp]; exact ⟨hrange.1, hrange.2.1⟩) hrec
        (fun it hit => hA it (by rw [hcalls]; exact List.mem_cons_of_mem _ hit))
      rw [hp] at hrec2
      rw [hcalls]
      simp [sequential_ports_step, hseq, hrec2]

/-- C23: in a run of `stress_udp_flood` in which every `stress_mwc16modn(65535
- 1024)` returned a value below its argument and every
`stress_net_reserve_ports(p, p)` returned a negative value or `p`, every port
passed to `stress_net_reserve_ports`, `stress_set_sockaddr_port` and
`stress_net_release_ports` lies in `[1024, 65535]`, the ports used after the
first check of an iteration (the random port) lie in `[1024, 65534]`, and the
sequential port of each iteration is the one before plus one, 65535 being
followed by 1024, starting after 1024. -/
theorem stress_udp_flood_ports {D : Type} (F : DoubleSumOps D) (MB : Nat)
    (EPROTONOSUPPORT : Int) (env : udp_flood_env D) (args : stress_args_t)
    (r : udp_flood_result D)
    (hmwc : ∀ e ∈ env.iterations, e.mwc < 65535 - 1024)
    (hres : ∀ it ∈ r.calls, reserve_returns_requested it = true)
    (hr : stress_udp_flood F MB EPROTONOSUPPORT env args = some r) :
    (∀ it ∈ r.calls, ports_in 1024 65535 it = true) ∧
    (∀ it ∈ r.calls, ports_in 1024 65534 (calls_after_check it) = true) ∧
    sequential_ports_step 1024 r.calls = true ∧
    (∀ p : Int, 1024 ≤ p → p < 65535 → next_port p = p + 1) ∧
    next_port 65535 = 1024 := by
  have hnext : (∀ p : Int, 1024 ≤ p → p < 65535 → next_port p = p + 1) ∧
      next_port 65535 = 1024 :=
    ⟨fun p h1 h2 => (next_port_range p ⟨h1, by omega⟩).2.2.2 h2, by decide⟩
  rcases stress_udp_flood_calls F MB EPROTONOSUPPORT env args r hr with hnil | ⟨final, hloop⟩
  · rw [hnil]
    refine ⟨?_, ?_, rfl, hnext.1, hnext.2⟩
    · intro it hit; cases hit
    · intro it hit; cases hit
  · have hinv := udp_flood_loop_calls_inv _ F
      (fun s => 1024 ≤ s.port ∧ s.port ≤ 65535) (fun e => e.mwc < 65535 - 1024)
      (fun it => reserve_returns_requested it = true)
      (fun it => ports_in 1024 65535 it = true ∧
        ports_in 1024 65534 (calls_after_check it) = true)
      (fun e s hE hI hA => by
        obtain ⟨hp, hport⟩ := udp_flood_iteration_ports _ F e s hE hI hA
        refine ⟨hp, ?_⟩
        show 1024 ≤ (udp_flood_iteration _ F e s).state.port ∧
          (udp_flood_iteration _ F e s).state.port ≤ 65535
        rw [hport]
        exact ⟨(next_port_range s.port hI).1, (next_port_range s.port hI).2.1⟩)
      env.iterations _ final r.calls
      (show (1024 : Int) ≤ 1024 ∧ (1024 : Int) ≤ 65535 from ⟨by decide, by decide⟩)
      hmwc hloop hres
    have hseq := udp_flood_loop_sequential _ F env.iterations _ final r.calls hmwc
      (show (1024 : Int) ≤ 1024 ∧ (1024 : Int) ≤ 65535 from ⟨by decide, by decide⟩)
      hloop hres
    exact ⟨fun it hit => (hinv.1 it hit).1, fun it hit => (hinv.1 it hit).2, hseq,
      hnext.1, hnext.2⟩

theorem udp_flood_env_three_calls :
    (stress_udp_flood rat_sum_ops (2 ^ 20) 93 udp_flood_env_three
      ⟨⟨0, true, true, false⟩, 0, 0⟩).map (fun r => r.calls) =
    some [[udp_call.reserve_ports 1025 (-1), udp_call.keep_stressing true],
      [udp_call.reserve_ports 1026 1026, udp_call.set_sockaddr_port 1026,
       udp_call.memset 0 1, udp_call.sendto 1 0, udp_call.release_ports 1026,
       udp_call.keep_stressing true, udp_call.reserve_ports 1031 (-1),
       udp_call.keep_stressing true],
      [udp_call.reserve_ports 1027 1027, udp_call.set_sockaddr_port 1027,
       udp_call.memset 1 1, udp_call.sendto 1 1, udp_call.inc_counter,
       udp_call.release_ports 1027, udp_call.keep_stressing false]] := by
  rfl

theorem udp_flood_env_three_result (r : udp_flood_result ℚ)
    (hr : stress_udp_flood rat_sum_ops (2 ^ 20) 93 udp_flood_env_three
      ⟨⟨0, true, true, false⟩, 0, 0⟩ = some r) :
    r.calls = [[udp_call.reserve_ports 1025 (-1), udp_call.keep_stressing true],
      [udp_call.reserve_ports 1026 1026, udp_call.set_sockaddr_port 1026,
       udp_call.memset 0 1, udp_call.sendto 1 0, udp_call.release_ports 1026,
       udp_call.keep_stressing true, udp_call.reserve_ports 1031 (-1),
       udp_call.keep_stressing true],
      [udp_call.reserve_ports 1027 1027, udp_call.set_sockaddr_port 1027,
       udp_call.memset 1 1, udp_call.sendto 1 1, udp_call.inc_counter,
       udp_call.release_ports 1027, udp_call.keep_stressing false]] := by
  have h := udp_flood_env_three_calls
  rw [hr] at h
  exact Option.some.inj h

theorem udp_flood_env_three_returns :
    ∃ r, stress_udp_flood rat_sum_ops (2 ^ 20) 93 udp_flood_env_three
      ⟨⟨0, true, true, false⟩, 0, 0⟩ = some r := by
  cases hr : stress_udp_flood rat_sum_ops (2 ^ 20) 93 udp_flood_env_three
      ⟨⟨0, true, true, false⟩, 0, 0⟩ with
  | none =>
    have h := udp_flood_env_three_calls
    rw [hr] at h
    cases h
  | some r => exact ⟨r, rfl⟩

/-- Instance of C22: the run of three iterations for instance 0: every payload
length lies in `[1, 22]`. -/
theorem stress_udp_flood_payload_sizes_witness :
    ∃ r, stress_udp_flood rat_sum_ops (2 ^ 20) 93 udp_flood_env_three
        ⟨⟨0, true, true, false⟩, 0, 0⟩ = some r ∧
      (∀ it ∈ r.calls, payload_sizes_in 1 2047 it = true) ∧
      (∀ it ∈ r.calls, payload_sizes_in 1 22 it = true) := by
  obtain ⟨r, hr⟩ := udp_flood_env_three_returns
  have h := stress_udp_flood_payload_sizes rat_sum_ops (2 ^ 20) 93 udp_flood_env_three
    ⟨⟨0, true, true, false⟩, 0, 0⟩ r hr
  exact ⟨r, hr, h.2.1, h.2.2.2.1 rfl⟩

/-- Instance of C23: the run of three iterations: the sequential ports are
1025, 1026, 1027 and the random port is 1031. -/
theorem stress_udp_flood_ports_witness :
    ∃ r, stress_udp_flood rat_sum_ops (2 ^ 20) 93 udp_flood_env_three
        ⟨⟨0, true, true, false⟩, 0, 0⟩ = some r ∧
      (∀ e ∈ udp_flood_env_three.iterations, e.mwc < 65535 - 1024) ∧
      (∀ it ∈ r.calls, reserve_returns_requested it = true) ∧
      (∀ it ∈ r.calls, ports_in 1024 65535 it = true) ∧
      (∀ it ∈ r.calls, ports_in 1024 65534 (calls_after_check it) = true) ∧
      sequential_ports_step 1024 r.calls = true := by
  obtain ⟨r, hr⟩ := udp_flood_env_three_returns
  have hmwc : ∀ e ∈ udp_flood_env_three.iterations, e.mwc < 65535 - 1024 := by
    decide
  have hres : ∀ it ∈ r.calls, reserve_returns_requested it = true := by
    rw [udp_flood_env_three_result r hr]
    decide
  have h := stress_udp_flood_ports rat_sum_ops (2 ^ 20) 93 udp_flood_env_three
    ⟨⟨0, true, true, false⟩, 0, 0⟩ r hmwc hres hr
  exact ⟨r, hr, hmwc, hres, h.1, h.2.1, h.2.2.1⟩

theorem held_after_append (a : List udp_call) :
    ∀ (held : Option Int) (b : List udp_call),
      held_after held (a ++ b) = (held_after held a).bind (fun h => held_after h b) := by
  induction a with
  | nil => intro held b; rfl
  | cons c cs ih =>
    intro held b
    cases c with
    | reserve_ports p ret =>
      cases held with
      | none =>
        by_cases hret : ret < 0
        · simp only [List.cons_append, held_after, hret, if_true]
          exact ih none b
        · simp only [List.cons_append, held_after, hret, if_false]
          exact ih (some ret) b
      | some q => rfl
    | release_ports p =>
      by_cases hp : held = some p
      · simp only [List.cons_append, held_after, hp, if_true]
        exact ih none b
      · simp only [List.cons_append, held_after, hp, if_false]
        rfl
    | keep_stressing k =>
      cases held with
      | none => exact ih none b
      | some q => rfl
    | set_sockaddr_port p => exact ih held b
    | memset idx sz => exact ih held b
    | sendto sz n => exact ih held b
    | inc_counter => exact ih held b
    | ioctl_outq => exact ih held b

theorem udp_flood_iteration_balanced {D : Type} (sz_max : Nat) (F : DoubleSumOps D)
    (e : udp_iter_env) (s : udp_loop_state D) :
    held_after none (udp_flood_iteration sz_max F e s).calls = some none := by
  obtain ⟨X, Y, X2, hX, hY, hX2, hshape⟩ := udp_flood_iteration_shape sz_max F e s
  rcases hshape with ⟨hr1, k, hc, _, _⟩ | ⟨hr1, hc, _, _⟩ | ⟨hr1, hr2, k, hc, _, _⟩ |
    ⟨hr1, hr2, k, hc, _, _⟩
  · rw [hc]
    simp [held_after, hr1]
  · rw [hc]
    rcases hX with rfl | rfl <;> rcases hY with rfl | rfl <;> simp [held_after, hr1]
  · rw [hc]
    rcases hX with rfl | rfl <;> rcases hY with rfl | rfl <;> simp [held_after, hr1, hr2]
  · rw [hc]
    rcases hX with rfl | rfl <;> rcases hY with rfl | rfl <;> rcases hX2 with rfl | rfl <;>
      simp [held_after, hr1, hr2]

theorem held_after_all_calls (calls : List (List udp_call))
    (h : ∀ it ∈ calls, held_after none it = some none) :
    held_after none (all_calls calls) = some none := by
  induction calls with
  | nil => rfl
  | cons c cs ih =>
    show held_after none (c ++ all_calls cs) = some none
    rw [held_after_append, h c (List.mem_cons_self _ _)]
    exact ih (fun it hit => h it (List.mem_cons_of_mem _ hit))

/-- C24: in a run of `stress_udp_flood` the reservations are balanced.  Along
the calls of every iteration and of the whole run, starting with no port held:
a reservation is attempted only while no port is held, a successful one is
followed by the release of the port it returned before the next reservation
attempt and before the next `keep_stressing` check (so before either `break`),
a release occurs only for the port held, so never after a failed reservation;
at every point at most one port is held, and none is held at the end of each
iteration and of the run. -/
theorem stress_udp_flood_reservations_balanced {D : Type} (F : DoubleSumOps D)
    (MB : Nat) (EPROTONOSUPPORT : Int) (env : udp_flood_env D) (args : stress_args_t)
    (r : udp_flood_result D)
    (hr : stress_udp_flood F MB EPROTONOSUPPORT env args = some r) :
    (∀ it ∈ r.calls, held_after none it = some none) ∧
    held_after none (all_calls r.calls) = some none ∧
    (∀ pre suf : List udp_call, all_calls r.calls = pre ++ suf →
      ∃ held : Option Int, held_after none pre = some held) := by
  have hiter : ∀ it ∈ r.calls, held_after none it = some none := by
    rcases stress_udp_flood_calls F MB EPROTONOSUPPORT env args r hr with hnil | ⟨final, hloop⟩
    · rw [hnil]; intro it hit; cases hit
    · exact udp_flood_loop_calls_forall _ F (fun it => held_after none it = some none)
        (fun e s => udp_flood_iteration_balanced _ F e s) env.iterations _ final r.calls
        hloop
  have hall := held_after_all_calls r.calls hiter
  refine ⟨hiter, hall, ?_⟩
  intro pre suf hsplit
  rw [hsplit, held_after_append] at hall
  cases hpre : held_after none pre with
  | none => rw [hpre] at hall; cases hall
  | some held => exact ⟨held, rfl⟩

/-- Instance of C24: the run of three iterations (a failed reservation, a
successful and a failed one, a successful one before the `break`): no port is
held at the end. -/
theorem stress_udp_flood_reservations_balanced_witness :
    ∃ r, stress_udp_flood rat_sum_ops (2 ^ 20) 93 udp_flood_env_three
        ⟨⟨0, true, true, false⟩, 0, 0⟩ = some r ∧
      (∀ it ∈ r.calls, held_after none it = some none) ∧
      held_after none (all_calls r.calls) = some none := by
  obtain ⟨r, hr⟩ := udp_flood_env_three_returns
  have h := stress_udp_flood_reservations_balanced rat_sum_ops (2 ^ 20) 93
    udp_flood_env_three ⟨⟨0, true, true, false⟩, 0, 0⟩ r hr
  exact ⟨r, hr, h.1, h.2.1⟩

/-! ## Theorems: the counter and the byte total of the UDP flood loop -/

end StressNg
